import Mathlib

/-!
# KTX pixbuf loader (`io-ktx.c`): embedding and verified properties

The loader is embedded shallowly: the two classifier switches and the numeric
decoder are pure functions, the conversion loop of `ktx_image_stop_load` is a
state-passing fold whose state carries the two cursors and a log of every
decode and every store into the destination buffer.

Conventions.
* C `unsigned` is a natural number reduced modulo `2 ^ 32`, `gsize` one reduced
  modulo `2 ^ 64`; `GLint` is an integer.
* A pointer is the view of memory from that pointer on: a function from byte
  offsets to bytes.  Multi-byte samples are read little-endian.
* A floating-point variable holds a value of `FloatVal`; bit patterns are decoded
  and results are rounded to nearest-even, as IEEE-754 arithmetic does.
-/

namespace KTX

/-! ## Enumerants of `<GL/gl.h>` used by the loader -/

/-- Pixel-layout enumerant `GL_STENCIL_INDEX` of the OpenGL headers. -/
def GL_STENCIL_INDEX : Nat := 0x1901
/-- Pixel-layout enumerant `GL_DEPTH_COMPONENT` of the OpenGL headers. -/
def GL_DEPTH_COMPONENT : Nat := 0x1902
/-- Pixel-layout enumerant `GL_RED` of the OpenGL headers. -/
def GL_RED : Nat := 0x1903
/-- Pixel-layout enumerant `GL_RGB` of the OpenGL headers. -/
def GL_RGB : Nat := 0x1907
/-- Pixel-layout enumerant `GL_RGBA` of the OpenGL headers. -/
def GL_RGBA : Nat := 0x1908
/-- Pixel-layout enumerant `GL_BGR` of the OpenGL headers. -/
def GL_BGR : Nat := 0x80E0
/-- Pixel-layout enumerant `GL_BGRA` of the OpenGL headers. -/
def GL_BGRA : Nat := 0x80E1
/-- Pixel-layout enumerant `GL_RG` of the OpenGL headers. -/
def GL_RG : Nat := 0x8227

/-- Numeric-encoding enumerant `GL_BYTE` of the OpenGL headers. -/
def GL_BYTE : Nat := 0x1400
/-- Numeric-encoding enumerant `GL_UNSIGNED_BYTE` of the OpenGL headers. -/
def GL_UNSIGNED_BYTE : Nat := 0x1401
/-- Numeric-encoding enumerant `GL_SHORT` of the OpenGL headers. -/
def GL_SHORT : Nat := 0x1402
/-- Numeric-encoding enumerant `GL_UNSIGNED_SHORT` of the OpenGL headers. -/
def GL_UNSIGNED_SHORT : Nat := 0x1403
/-- Numeric-encoding enumerant `GL_INT` of the OpenGL headers. -/
def GL_INT : Nat := 0x1404
/-- Numeric-encoding enumerant `GL_UNSIGNED_INT` of the OpenGL headers. -/
def GL_UNSIGNED_INT : Nat := 0x1405
/-- Numeric-encoding enumerant `GL_FLOAT` of the OpenGL headers. -/
def GL_FLOAT : Nat := 0x1406
/-- Numeric-encoding enumerant `GL_DOUBLE` of the OpenGL headers. -/
def GL_DOUBLE : Nat := 0x140A
/-- Numeric-encoding enumerant `GL_HALF_FLOAT` of the OpenGL headers. -/
def GL_HALF_FLOAT : Nat := 0x140B
/-- Numeric-encoding enumerant `GL_FIXED` of the OpenGL headers. -/
def GL_FIXED : Nat := 0x140C

/-! ## Format classifier -/

/-- The switch of `gl_format_channel_count`: labels that share a body are one
disjunction, the `default` label is the final `else`.  The argument is a `GLint`. -/
def gl_format_channel_count (format : Int) : Nat :=
  if format = GL_RED ∨ format = GL_STENCIL_INDEX ∨ format = GL_DEPTH_COMPONENT then 1
  else if format = GL_RG then 2
  else if format = GL_RGB ∨ format = GL_BGR then 3
  else if format = GL_RGBA ∨ format = GL_BGRA then 4
  else 0

/-- The switch of `gl_type_sizeof`.  The argument is a `GLenum` (unsigned). -/
def gl_type_sizeof (type : Nat) : Nat :=
  if type = GL_BYTE ∨ type = GL_UNSIGNED_BYTE then 1
  else if type = GL_SHORT ∨ type = GL_UNSIGNED_SHORT ∨ type = GL_HALF_FLOAT then 2
  else if type = GL_INT ∨ type = GL_UNSIGNED_INT ∨ type = GL_FIXED ∨ type = GL_FLOAT then 4
  else if type = GL_DOUBLE then 8
  else 0

/-! ## Machine arithmetic and memory -/

/-- Reduction of a value to C `unsigned` (32 bits). -/
def to_unsigned (n : Nat) : Nat := n % 2 ^ 32

/-- Reduction of a value to `gsize` (64 bits). -/
def to_gsize (n : Nat) : Nat := n % 2 ^ 64

/-- Conversion of an `int` to `guchar`: reduction modulo 256. -/
def int_to_guchar (i : Int) : Nat := (i % 256).toNat

/-- Two's-complement reading of a `w`-bit pattern. -/
def to_signed (w : Nat) (u : Nat) : Int :=
  if u % 2 ^ w < 2 ^ (w - 1) then (u % 2 ^ w : Nat) else (u % 2 ^ w : Nat) - 2 ^ w

/-- The macro `max(a, b)`, `((a) > (b) ? (a) : (b))`, at type `int`. -/
def c_max (a b : Int) : Int := if a > b then a else b

/-- The pointer `p + off`. -/
def ptr_add (p : Nat → Nat) (off : Nat) : Nat → Nat := fun i => p (off + i)

/-- Load of the byte a pointer designates. -/
def load_u8 (p : Nat → Nat) : Nat := p 0 % 256

/-- Load of an `unsigned short`. -/
def load_u16 (p : Nat → Nat) : Nat := p 0 % 256 + 2 ^ 8 * (p 1 % 256)

/-- Load of an `unsigned`. -/
def load_u32 (p : Nat → Nat) : Nat :=
  p 0 % 256 + 2 ^ 8 * (p 1 % 256) + 2 ^ 16 * (p 2 % 256) + 2 ^ 24 * (p 3 % 256)

/-- Load of a 64-bit pattern. -/
def load_u64 (p : Nat → Nat) : Nat :=
  load_u32 p + 2 ^ 32 * load_u32 (ptr_add p 4)

/-! ## Floating point -/

/-- A value of a floating-point variable: not-a-number, an infinity, or the
finite number `(-1) ^ neg * m * 2 ^ e`. -/
inductive FloatVal where
  | nan : FloatVal
  | inf (neg : Bool) : FloatVal
  | fin (neg : Bool) (m : Nat) (e : Int) : FloatVal
deriving DecidableEq, Repr

/-- Number of binary digits of `k`, by halving at most `fuel` times. -/
def bit_length_aux : Nat → Nat → Nat
  | 0, _ => 0
  | fuel + 1, k => if k = 0 then 0 else bit_length_aux fuel (k / 2) + 1

/-- Number of binary digits of `k` (`0` for `0`). -/
def bit_length (k : Nat) : Nat := bit_length_aux k k

/-- Value of the bit pattern `u` in the IEEE-754 binary format with `ebits`
exponent bits and `mbits` stored significand bits. -/
def ieee_decode (ebits mbits : Nat) (u : Nat) : FloatVal :=
  let m := u % 2 ^ mbits
  let e := u / 2 ^ mbits % 2 ^ ebits
  let s : Bool := u / 2 ^ (mbits + ebits) % 2 = 1
  let bias : Int := 2 ^ (ebits - 1) - 1
  if e = 2 ^ ebits - 1 then (if m = 0 then .inf s else .nan)
  else if e = 0 then .fin s m (1 - bias - mbits)
  else .fin s (2 ^ mbits + m) (e - bias - mbits)

/-- Rounding of `(-1) ^ s * k * 2 ^ e` to the format, to nearest with ties to
even; the result is `.fin s m e'` with `m ≤ 2 ^ (mbits + 1)` and `e'` at least
the exponent of the subnormals, or an infinity on overflow. -/
def ieee_round (ebits mbits : Nat) (s : Bool) (k : Nat) (e : Int) : FloatVal :=
  let emin : Int := 2 - 2 ^ (ebits - 1) - mbits
  let e' : Int := max (e + bit_length k - (mbits + 1)) emin
  let m : Nat :=
    if e' ≤ e then k * 2 ^ (e - e').toNat
    else
      let sh := (e' - e).toNat
      let q := k / 2 ^ sh
      let r := k % 2 ^ sh
      let half := 2 ^ (sh - 1)
      if r > half ∨ (r = half ∧ q % 2 = 1) then q + 1 else q
  if (bit_length m : Int) + e' > 2 ^ (ebits - 1) then .inf s else .fin s m e'

/-- Bit pattern of a value produced by `ieee_decode` or `ieee_round`. -/
def ieee_encode (ebits mbits : Nat) (v : FloatVal) : Nat :=
  let sign (s : Bool) : Nat := if s then 2 ^ (ebits + mbits) else 0
  match v with
  | .nan => (2 ^ ebits - 1) * 2 ^ mbits + 2 ^ (mbits - 1)
  | .inf s => sign s + (2 ^ ebits - 1) * 2 ^ mbits
  | .fin s m e =>
    let emin : Int := 2 - 2 ^ (ebits - 1) - mbits
    if m < 2 ^ mbits then sign s + m
    else if m = 2 ^ (mbits + 1) then sign s + (e - emin + 2).toNat * 2 ^ mbits
    else sign s + (e - emin + 1).toNat * 2 ^ mbits + (m - 2 ^ mbits)

/-- The integer `(-1) ^ s * m * 2 ^ (e - c)`, for `c ≤ e`. -/
def scaled_int (s : Bool) (m : Nat) (e c : Int) : Int :=
  (if s then -1 else 1) * ((m * 2 ^ (e - c).toNat : Nat) : Int)

/-- IEEE-754 subtraction `a - b` in the format. -/
def float_sub (ebits mbits : Nat) (a b : FloatVal) : FloatVal :=
  match a, b with
  | .nan, _ => .nan
  | _, .nan => .nan
  | .inf s, .inf t => if s = t then .nan else .inf s
  | .inf s, .fin _ _ _ => .inf s
  | .fin _ _ _, .inf t => .inf (!t)
  | .fin s m e, .fin t n f =>
    let c := min e f
    let d := scaled_int s m e c - scaled_int t n f c
    if d = 0 then .fin (if m = 0 ∧ n = 0 then s && !t else false) 0 c
    else ieee_round ebits mbits (decide (d < 0)) d.natAbs c

/-- IEEE-754 multiplication `a * b` in the format. -/
def float_mul (ebits mbits : Nat) (a b : FloatVal) : FloatVal :=
  match a, b with
  | .nan, _ => .nan
  | _, .nan => .nan
  | .inf s, .inf t => .inf (xor s t)
  | .inf s, .fin t n _ => if n = 0 then .nan else .inf (xor s t)
  | .fin s m _, .inf t => if m = 0 then .nan else .inf (xor s t)
  | .fin s m e, .fin t n f => ieee_round ebits mbits (xor s t) (m * n) (e + f)

/-- The comparison `a < b` of two floating-point values. -/
def float_lt (a b : FloatVal) : Bool :=
  match a, b with
  | .nan, _ => false
  | _, .nan => false
  | .inf s, .inf t => s && !t
  | .inf s, .fin _ _ _ => s
  | .fin _ _ _, .inf t => !t
  | .fin s m e, .fin t n f =>
    let c := min e f
    decide (scaled_int s m e c < scaled_int t n f c)

/-- An integer constant converted to floating point. -/
def float_of_nat (n : Nat) : FloatVal := .fin false n 0

/-- Conversion of a `double` to `guchar`: truncation toward zero.  C defines it
only for values in `(-1, 256)`; elsewhere the low byte of the truncated value is
returned, and `0` for a NaN or an infinity. -/
def double_to_guchar (v : FloatVal) : Nat :=
  match v with
  | .fin s m e =>
    let t : Nat := if 0 ≤ e then m * 2 ^ e.toNat else m / 2 ^ (-e).toNat
    int_to_guchar (if s then -(t : Int) else t)
  | _ => 0

/-- The function `half_to_float`, on bit patterns: the result is the pattern
`o.u` of the returned `float`.  The one floating-point operation,
`o.f -= magic.f`, is IEEE-754 binary32 subtraction. -/
def half_to_float (hf : Nat) : Nat :=
  let hu := hf % 2 ^ 16
  let magic : Nat := 113 <<< 23
  let shifted_exp : Nat := 0x7c00 <<< 13
  let o := to_unsigned ((hu &&& 0x7fff) <<< 13)
  let exp := shifted_exp &&& o
  let o := to_unsigned (o + ((127 - 15) <<< 23))
  let o :=
    if exp = shifted_exp then to_unsigned (o + ((128 - 16) <<< 23))
    else if exp = 0 then
      let o := to_unsigned (o + (1 <<< 23))
      ieee_encode 8 23 (float_sub 8 23 (ieee_decode 8 23 o) (ieee_decode 8 23 magic))
    else o
  o ||| to_unsigned ((hu &&& 0x8000) <<< 16)

/-! ## Numeric decoder -/

/-- The statements `if(ftmp < 0) ftmp = 0; if(ftmp > 1) ftmp = 1; return ftmp*255;`
that end each floating-point case of `read_gl_type`; `ftmp` is a `double`. -/
def clamp_scale (ftmp : FloatVal) : Nat :=
  let ftmp := if float_lt ftmp (float_of_nat 0) then float_of_nat 0 else ftmp
  let ftmp := if float_lt (float_of_nat 1) ftmp then float_of_nat 1 else ftmp
  double_to_guchar (float_mul 11 52 ftmp (float_of_nat 255))

/-- The case labels of the switch in `read_gl_type`. -/
inductive ReadCase where
  | byte | unsigned_byte | short | unsigned_short | half_float
  | int | unsigned_int | float | double | default
deriving DecidableEq, Repr

/-- The label the switch of `read_gl_type` selects for an encoding tag. -/
def read_gl_type_case (type : Nat) : ReadCase :=
  if type = GL_BYTE then .byte
  else if type = GL_UNSIGNED_BYTE then .unsigned_byte
  else if type = GL_SHORT then .short
  else if type = GL_UNSIGNED_SHORT then .unsigned_short
  else if type = GL_HALF_FLOAT then .half_float
  else if type = GL_INT then .int
  else if type = GL_UNSIGNED_INT then .unsigned_int
  else if type = GL_FLOAT then .float
  else if type = GL_DOUBLE then .double
  else .default

/-- The function `read_gl_type`: the body of the selected case, narrowed to the
`guchar` return type. -/
def read_gl_type (data : Nat → Nat) (type : Nat) : Nat :=
  match read_gl_type_case type with
  | .byte =>
    let itmp := to_signed 8 (load_u8 data)
    int_to_guchar (c_max (itmp * 2) 0)
  | .unsigned_byte => load_u8 data
  | .short =>
    let itmp := to_signed 16 (load_u16 data)
    int_to_guchar (c_max (Int.tdiv itmp 128) 0)
  | .unsigned_short =>
    let utmp := load_u16 data
    (utmp / 257) % 256
  | .half_float =>
    clamp_scale (ieee_decode 8 23 (half_to_float (load_u16 data)))
  | .int =>
    let itmp := to_signed 32 (load_u32 data)
    int_to_guchar (c_max (Int.tdiv itmp 8421504) 0)
  | .unsigned_int =>
    let utmp := load_u32 data
    (utmp / 16843009) % 256
  | .float => clamp_scale (ieee_decode 8 23 (load_u32 data))
  | .double => clamp_scale (ieee_decode 11 52 (load_u64 data))
  | .default => 0

/-! ## The loader: `ktx_image_stop_load` -/

/-- The loop `for(unsigned i = 0; i < n; ++i) body`, as a fold of the body over
`0, 1, ..., n - 1`. -/
def for_range {σ : Type} (n : Nat) (body : Nat → σ → σ) (s : σ) : σ :=
  match n with
  | 0 => s
  | k + 1 => body k (for_range k body s)

/-- The success value `KTX_SUCCESS` of `KTX_error_code`. -/
def KTX_SUCCESS : Nat := 0

/-- What the container library hands to the loader: the result of
`ktxTexture_CreateFromMemory`, the fields of the `ktxTexture` the loader reads,
the result and output of `ktxTexture_GetImageOffset`, and the memory at
`ktxTexture_GetData`. -/
structure Texture where
  create_result : Nat
  numDimensions : Nat
  isCompressed : Bool
  isCubemap : Bool
  isArray : Bool
  offset_result : Nat
  offset : Nat
  glFormat : Nat
  glType : Nat
  baseWidth : Nat
  baseHeight : Nat
  data : Nat → Nat

/-- The host side of a load: which callbacks the context holds and whether
`gdk_pixbuf_new_from_data` returns a pixbuf. -/
structure Host where
  has_size_func : Bool
  has_prepared_func : Bool
  pixbuf_created : Bool

/-- The arguments `has_alpha`, `bits_per_sample`, `width`, `height` and
`rowstride` of the call to `gdk_pixbuf_new_from_data`, as the callee receives
them: the last four parameters are of type `int`, so the unsigned 32-bit values
the loader computes arrive converted to `int`. -/
structure PixbufArgs where
  has_alpha : Bool
  bits_per_sample : Int
  width : Int
  height : Int
  rowstride : Int
deriving DecidableEq, Repr

/-- State of the conversion loop: the two cursors, the source offsets passed to
`read_gl_type` so far, and the stores `dst_data[index] = value` so far, both in
program order. -/
structure Conv where
  src_offset : Nat
  dst_offset : Nat
  decoded : List Nat
  stored : List (Nat × Nat)
deriving DecidableEq, Repr

/-- The loop `// Read pixel from src`: starts from `rgba = {0,0,0,0}`. -/
def read_pixel (src_data : Nat → Nat) (glType src_type_size src_channel_count : Nat)
    (s : Conv) : List Nat × Conv :=
  for_range src_channel_count
    (fun i (p : List Nat × Conv) =>
      (p.1.set i (read_gl_type (ptr_add src_data p.2.src_offset) glType),
       { p.2 with
         src_offset := to_unsigned (p.2.src_offset + src_type_size)
         decoded := p.2.decoded ++ [p.2.src_offset] }))
    ([0, 0, 0, 0], s)

/-- The statement `// Put BGR & BGRA into the Correct Order.` -/
def reorder_pixel (glFormat : Nat) (rgba : List Nat) : List Nat :=
  if glFormat = GL_BGR ∨ glFormat = GL_BGRA then
    let tmp := rgba.getD 2 0
    let rgba := rgba.set 2 (rgba.getD 0 0)
    rgba.set 0 tmp
  else rgba

/-- The loop `// Write pixel to dst`. -/
def write_pixel (dst_channel_count : Nat) (rgba : List Nat) (s : Conv) : Conv :=
  for_range dst_channel_count
    (fun i (s : Conv) =>
      { s with
        stored := s.stored ++ [(s.dst_offset, rgba.getD i 0)]
        dst_offset := to_unsigned (s.dst_offset + 1) })
    s

/-- The body of the loop over `x`: one pixel. -/
def convert_pixel (src_data : Nat → Nat) (glFormat glType : Nat)
    (src_type_size src_channel_count dst_channel_count : Nat) (s : Conv) : Conv :=
  let p := read_pixel src_data glType src_type_size src_channel_count s
  write_pixel dst_channel_count (reorder_pixel glFormat p.1) p.2

/-- The nested loops over `y` and `x`. -/
def convert_image (src_data : Nat → Nat) (glFormat glType : Nat)
    (src_type_size src_channel_count dst_channel_count : Nat)
    (baseWidth baseHeight : Nat) (s : Conv) : Conv :=
  for_range baseHeight
    (fun _ s =>
      for_range baseWidth
        (fun _ s =>
          convert_pixel src_data glFormat glType src_type_size src_channel_count
            dst_channel_count s)
        s)
    s

/-- What a call of `ktx_image_stop_load` did: the return value, the message of
the error it set, whether `size_func` was called, the size passed to `g_malloc`
if it was called, the final value of `dst_channel_count`, the conversion state,
the arguments of `gdk_pixbuf_new_from_data` if it was called, and whether
`prepared_func` was called. -/
structure LoadResult where
  ret : Bool
  error : Option String
  size_func_called : Bool
  malloc : Option Nat
  dst_channel_count : Nat
  conv : Conv
  pixbuf : Option PixbufArgs
  prepared_func_called : Bool
deriving DecidableEq, Repr

/-- The exit through `fail:` of a check that precedes the allocation: nothing
has been allocated, decoded or stored. -/
def fail_early (msg : String) (size_func_called : Bool) : LoadResult :=
  { ret := false, error := some msg, size_func_called := size_func_called
    malloc := none, dst_channel_count := 0
    conv := { src_offset := 0, dst_offset := 0, decoded := [], stored := [] }
    pixbuf := none, prepared_func_called := false }

/-- The function `ktx_image_stop_load`. -/
def ktx_image_stop_load (host : Host) (texture : Texture) : LoadResult :=
  if texture.create_result ≠ KTX_SUCCESS then fail_early "Failed to read file" false
  else if texture.numDimensions ≠ 2 then
    fail_early "Only 2-dimensional textures are supported" false
  else if texture.isCompressed = true then
    fail_early "Compressed textures are not supported" false
  else if texture.isCubemap = true then fail_early "Cubemaps are not supported" false
  else if texture.isArray = true then fail_early "Array textures are not supported" false
  else if texture.offset_result ≠ KTX_SUCCESS then fail_early "Unable to find image" false
  else
    let src_data := ptr_add texture.data texture.offset
    let src_channel_count := gl_format_channel_count (to_signed 32 texture.glFormat)
    let src_type_size := gl_type_sizeof texture.glType
    if src_type_size = 0 ∨ src_channel_count = 0 then
      fail_early "Unsupported image format" host.has_size_func
    else
      let size := to_gsize (1 * 4 * texture.baseWidth * texture.baseHeight)
      let dst_channel_count := if src_channel_count = 4 then 4 else 3
      let conv := convert_image src_data texture.glFormat texture.glType src_type_size
        src_channel_count dst_channel_count texture.baseWidth texture.baseHeight
        { src_offset := 0, dst_offset := 0, decoded := [], stored := [] }
      let args : PixbufArgs :=
        { has_alpha := decide (dst_channel_count = 4), bits_per_sample := 8
          width := to_signed 32 texture.baseWidth
          height := to_signed 32 texture.baseHeight
          rowstride := to_signed 32 (to_unsigned (texture.baseWidth * dst_channel_count)) }
      if host.pixbuf_created = false then
        { ret := false, error := some "Failed to decode image"
          size_func_called := host.has_size_func, malloc := some size
          dst_channel_count := dst_channel_count, conv := conv, pixbuf := some args
          prepared_func_called := false }
      else
        { ret := true, error := none
          size_func_called := host.has_size_func, malloc := some size
          dst_channel_count := dst_channel_count, conv := conv, pixbuf := some args
          prepared_func_called := host.has_prepared_func }

/-- A pointer to the bytes of a list, followed by zero bytes. -/
def bytes (l : List Nat) : Nat → Nat := fun i => l.getD i 0

/-- A two-dimensional, uncompressed, non-cubemap, non-array texture whose image
is found at offset `0`. -/
def plain_texture (glFormat glType baseWidth baseHeight : Nat) (data : Nat → Nat) :
    Texture :=
  { create_result := KTX_SUCCESS, numDimensions := 2, isCompressed := false
    isCubemap := false, isArray := false, offset_result := KTX_SUCCESS, offset := 0
    glFormat := glFormat, glType := glType, baseWidth := baseWidth
    baseHeight := baseHeight, data := data }

/-- A host with both callbacks whose pixbuf creation succeeds. -/
def plain_host : Host :=
  { has_size_func := true, has_prepared_func := true, pixbuf_created := true }

/-! ## The conversion loop with checked array accesses -/

/-- The loop of `read_pixel` in which the store `rgba[i] = ...` fails when `i`
is not an index of the scratch pixel. -/
def read_pixel_checked (src_data : Nat → Nat) (glType src_type_size src_channel_count : Nat)
    (s : Conv) : Option (List Nat × Conv) :=
  for_range src_channel_count
    (fun i (p : Option (List Nat × Conv)) =>
      p.bind fun p =>
        if i < p.1.length then
          some (p.1.set i (read_gl_type (ptr_add src_data p.2.src_offset) glType),
            { p.2 with
              src_offset := to_unsigned (p.2.src_offset + src_type_size)
              decoded := p.2.decoded ++ [p.2.src_offset] })
        else none)
    (some ([0, 0, 0, 0], s))

/-- The statement of `reorder_pixel`, failing when `rgba[2]` or `rgba[0]` is
not an element of the scratch pixel. -/
def reorder_pixel_checked (glFormat : Nat) (rgba : List Nat) : Option (List Nat) :=
  if glFormat = GL_BGR ∨ glFormat = GL_BGRA then
    if 2 < rgba.length then some (reorder_pixel glFormat rgba) else none
  else some rgba

/-- The loop of `write_pixel` in which `dst_data[dst_offset++] = rgba[i]` fails
when `i` is not an index of the scratch pixel or `dst_offset` is not an index
of the destination buffer of `size` bytes. -/
def write_pixel_checked (size dst_channel_count : Nat) (rgba : List Nat) (s : Conv) :
    Option Conv :=
  for_range dst_channel_count
    (fun i (o : Option Conv) =>
      o.bind fun s =>
        if i < rgba.length ∧ s.dst_offset < size then
          some { s with
            stored := s.stored ++ [(s.dst_offset, rgba.getD i 0)]
            dst_offset := to_unsigned (s.dst_offset + 1) }
        else none)
    (some s)

/-- One pixel, with checked accesses. -/
def convert_pixel_checked (size : Nat) (src_data : Nat → Nat) (glFormat glType : Nat)
    (src_type_size src_channel_count dst_channel_count : Nat) (s : Conv) : Option Conv :=
  (read_pixel_checked src_data glType src_type_size src_channel_count s).bind fun p =>
    (reorder_pixel_checked glFormat p.1).bind fun rgba =>
      write_pixel_checked size dst_channel_count rgba p.2

/-- The nested loops over `y` and `x`, with checked accesses: `none` as soon as
one access is out of bounds. -/
def convert_image_checked (size : Nat) (src_data : Nat → Nat) (glFormat glType : Nat)
    (src_type_size src_channel_count dst_channel_count : Nat)
    (baseWidth baseHeight : Nat) (s : Conv) : Option Conv :=
  for_range baseHeight
    (fun _ o =>
      for_range baseWidth
        (fun _ (o : Option Conv) =>
          o.bind (convert_pixel_checked size src_data glFormat glType src_type_size
            src_channel_count dst_channel_count))
        o)
    (some s)

/-! ## Vocabulary of the properties -/

/-- The texture passes every check of `ktx_image_stop_load` that precedes the
format lookup: parsed, two-dimensional, not compressed, not a cubemap, not an
array, image offset found. -/
def passes_container_checks (texture : Texture) : Prop :=
  texture.create_result = KTX_SUCCESS ∧ texture.numDimensions = 2 ∧
  texture.isCompressed = false ∧ texture.isCubemap = false ∧
  texture.isArray = false ∧ texture.offset_result = KTX_SUCCESS

instance (texture : Texture) : Decidable (passes_container_checks texture) := by
  unfold passes_container_checks; infer_instance

/-- Source channel count of a texture, as `ktx_image_stop_load` computes it:
`glFormat`, a 32-bit unsigned field, is passed as a `GLint`. -/
def src_channel_count (texture : Texture) : Nat :=
  gl_format_channel_count (to_signed 32 texture.glFormat)

/-- Both classifiers accept the texture. -/
def supported (texture : Texture) : Prop :=
  src_channel_count texture ≠ 0 ∧ gl_type_sizeof texture.glType ≠ 0

instance (texture : Texture) : Decidable (supported texture) := by
  unfold supported; infer_instance

/-- The image data of a texture: `ktxTexture_GetData(texture) + offset`. -/
def src_data (texture : Texture) : Nat → Nat := ptr_add texture.data texture.offset

/-- Channel `i` of source pixel number `k` (pixel `(x, y)` is number
`y * baseWidth + x`), decoded: the sample at byte offset
`(k * src_channel_count + i) * src_type_size` of the image data, the offset
being an `unsigned`; `0` when the layout has no channel `i`. -/
def source_channel (texture : Texture) (k i : Nat) : Nat :=
  if i < src_channel_count texture then
    read_gl_type
      (ptr_add (src_data texture)
        (to_unsigned ((k * src_channel_count texture + i) * gl_type_sizeof texture.glType)))
      texture.glType
  else 0

/-- The scratch slot stored as destination channel `j`: slots 0 and 2 are
exchanged for the `GL_BGR` and `GL_BGRA` layouts. -/
def channel_source (glFormat j : Nat) : Nat :=
  if glFormat = GL_BGR ∨ glFormat = GL_BGRA then
    (if j = 0 then 2 else if j = 2 then 0 else j)
  else j

/-- Destination channel count of a texture, as `ktx_image_stop_load` computes it. -/
def dst_channel_count (texture : Texture) : Nat :=
  if src_channel_count texture = 4 then 4 else 3

/-- The conversion state after `k` pixels, in closed form. -/
def after_pixels (texture : Texture) (k : Nat) : Conv :=
  { src_offset :=
      to_unsigned (k * (src_channel_count texture * gl_type_sizeof texture.glType))
    dst_offset := to_unsigned (k * dst_channel_count texture)
    decoded :=
      (List.range (k * src_channel_count texture)).map
        (fun n => to_unsigned (n * gl_type_sizeof texture.glType))
    stored :=
      (List.range (k * dst_channel_count texture)).map
        (fun n =>
          (to_unsigned n,
           source_channel texture (n / dst_channel_count texture)
             (channel_source texture.glFormat (n % dst_channel_count texture)))) }

/-- The integer a sample holds in an integer encoding: the value `read_gl_type`
loads into `itmp` or `utmp` (for `GL_UNSIGNED_BYTE`, the byte it returns); `0`
for the other encodings. -/
def integer_sample (data : Nat → Nat) (type : Nat) : Int :=
  match read_gl_type_case type with
  | .byte => to_signed 8 (load_u8 data)
  | .unsigned_byte => load_u8 data
  | .short => to_signed 16 (load_u16 data)
  | .unsigned_short => load_u16 data
  | .int => to_signed 32 (load_u32 data)
  | .unsigned_int => load_u32 data
  | _ => 0

/-- The value of the `return` expression of an integer case of `read_gl_type`,
before its conversion to the `guchar` return type; `0` for the other cases. -/
def integer_result (data : Nat → Nat) (type : Nat) : Int :=
  match read_gl_type_case type with
  | .byte => c_max (integer_sample data type * 2) 0
  | .unsigned_byte => integer_sample data type
  | .short => c_max (Int.tdiv (integer_sample data type) 128) 0
  | .unsigned_short => integer_sample data type / 257
  | .int => c_max (Int.tdiv (integer_sample data type) 8421504) 0
  | .unsigned_int => integer_sample data type / 16843009
  | _ => 0

/-- The six integer encodings. -/
def integer_encoding (type : Nat) : Prop :=
  type = GL_BYTE ∨ type = GL_UNSIGNED_BYTE ∨ type = GL_SHORT ∨
  type = GL_UNSIGNED_SHORT ∨ type = GL_INT ∨ type = GL_UNSIGNED_INT

instance (type : Nat) : Decidable (integer_encoding type) := by
  unfold integer_encoding; infer_instance

/-- The largest sample an integer encoding represents. -/
def largest_sample (type : Nat) : Int :=
  match read_gl_type_case type with
  | .byte => 127
  | .unsigned_byte => 255
  | .short => 32767
  | .unsigned_short => 65535
  | .int => 2147483647
  | .unsigned_int => 4294967295
  | _ => 0

/-- Sign field of a binary16 pattern. -/
def half_sign (h : Nat) : Nat := h / 2 ^ 15 % 2

/-- Exponent field of a binary16 pattern. -/
def half_exponent (h : Nat) : Nat := h / 2 ^ 10 % 32

/-- Significand field of a binary16 pattern. -/
def half_mantissa (h : Nat) : Nat := h % 2 ^ 10

/-- The number a finite binary16 pattern denotes, by IEEE 754:
`(-1) ^ s * 2 ^ (e - 15) * (1 + m / 1024)` for an exponent field `e` from 1 to
30, `(-1) ^ s * m * 2 ^ (-24)` for the exponent field 0. -/
def half_value (h : Nat) : ℚ :=
  (-1) ^ half_sign h *
    (if half_exponent h = 0 then (half_mantissa h : ℚ) * 2 ^ (-24 : ℤ)
     else 2 ^ ((half_exponent h : ℤ) - 15) * (1 + (half_mantissa h : ℚ) / 1024))

/-- The number a finite floating-point value denotes (`0` for the others). -/
def float_value (v : FloatVal) : ℚ :=
  match v with
  | .fin s m e => (if s then -1 else 1) * (m : ℚ) * 2 ^ e
  | _ => 0

/-- C1: `gl_format_channel_count` is 1 on `GL_RED`, `GL_STENCIL_INDEX` and
`GL_DEPTH_COMPONENT`, 2 on `GL_RG`, 3 on `GL_RGB` and `GL_BGR`, 4 on `GL_RGBA`
and `GL_BGRA`, and 0 on every other tag; so it is always at most 4 and it is
non-zero exactly on those eight tags. -/
theorem gl_format_channel_count_spec (f : Int) :
    ((f = GL_RED ∨ f = GL_STENCIL_INDEX ∨ f = GL_DEPTH_COMPONENT) →
      gl_format_channel_count f = 1) ∧
    (f = GL_RG → gl_format_channel_count f = 2) ∧
    ((f = GL_RGB ∨ f = GL_BGR) → gl_format_channel_count f = 3) ∧
    ((f = GL_RGBA ∨ f = GL_BGRA) → gl_format_channel_count f = 4) ∧
    (¬ (f = GL_RED ∨ f = GL_STENCIL_INDEX ∨ f = GL_DEPTH_COMPONENT ∨ f = GL_RG ∨
        f = GL_RGB ∨ f = GL_BGR ∨ f = GL_RGBA ∨ f = GL_BGRA) →
      gl_format_channel_count f = 0) ∧
    gl_format_channel_count f ∈ [0, 1, 2, 3, 4] ∧
    (gl_format_channel_count f ≠ 0 ↔
      (f = GL_RED ∨ f = GL_STENCIL_INDEX ∨ f = GL_DEPTH_COMPONENT ∨ f = GL_RG ∨
        f = GL_RGB ∨ f = GL_BGR ∨ f = GL_RGBA ∨ f = GL_BGRA)) := by
  unfold gl_format_channel_count
  simp only [GL_RED, GL_STENCIL_INDEX, GL_DEPTH_COMPONENT, GL_RG, GL_RGB, GL_BGR,
    GL_RGBA, GL_BGRA, List.mem_cons, List.mem_singleton, List.mem_nil_iff, or_false]
  push_cast
  split_ifs <;> omega

/-- C1, at a concrete tag: `GL_BGR` has three channels and tag `0` has none. -/
theorem gl_format_channel_count_spec_witness :
    gl_format_channel_count GL_BGR = 3 ∧ gl_format_channel_count 0 = 0 :=
  ⟨(gl_format_channel_count_spec GL_BGR).2.2.1 (Or.inr rfl),
   (gl_format_channel_count_spec 0).2.2.2.2.1 (by decide)⟩

/-- C2: `gl_type_sizeof` is 1 on `GL_BYTE` and `GL_UNSIGNED_BYTE`, 2 on
`GL_SHORT`, `GL_UNSIGNED_SHORT` and `GL_HALF_FLOAT`, 4 on `GL_INT`,
`GL_UNSIGNED_INT`, `GL_FIXED` and `GL_FLOAT`, 8 on `GL_DOUBLE`, and 0 on every
other tag; so it is always one of 0, 1, 2, 4, 8. -/
theorem gl_type_sizeof_spec (t : Nat) :
    ((t = GL_BYTE ∨ t = GL_UNSIGNED_BYTE) → gl_type_sizeof t = 1) ∧
    ((t = GL_SHORT ∨ t = GL_UNSIGNED_SHORT ∨ t = GL_HALF_FLOAT) → gl_type_sizeof t = 2) ∧
    ((t = GL_INT ∨ t = GL_UNSIGNED_INT ∨ t = GL_FIXED ∨ t = GL_FLOAT) →
      gl_type_sizeof t = 4) ∧
    (t = GL_DOUBLE → gl_type_sizeof t = 8) ∧
    (¬ (t = GL_BYTE ∨ t = GL_UNSIGNED_BYTE ∨ t = GL_SHORT ∨ t = GL_UNSIGNED_SHORT ∨
        t = GL_HALF_FLOAT ∨ t = GL_INT ∨ t = GL_UNSIGNED_INT ∨ t = GL_FIXED ∨
        t = GL_FLOAT ∨ t = GL_DOUBLE) →
      gl_type_sizeof t = 0) ∧
    gl_type_sizeof t ∈ [0, 1, 2, 4, 8] := by
  unfold gl_type_sizeof
  simp only [GL_BYTE, GL_UNSIGNED_BYTE, GL_SHORT, GL_UNSIGNED_SHORT, GL_HALF_FLOAT,
    GL_INT, GL_UNSIGNED_INT, GL_FIXED, GL_FLOAT, GL_DOUBLE, List.mem_cons,
    List.mem_singleton, List.mem_nil_iff, or_false]
  split_ifs <;> omega

/-- C2, at concrete tags: `GL_HALF_FLOAT` is two bytes wide and tag `0` is
unsupported. -/
theorem gl_type_sizeof_spec_witness :
    gl_type_sizeof GL_HALF_FLOAT = 2 ∧ gl_type_sizeof 0 = 0 :=
  ⟨(gl_type_sizeof_spec GL_HALF_FLOAT).2.1 (Or.inr (Or.inr rfl)),
   (gl_type_sizeof_spec 0).2.2.2.2.1 (by decide)⟩

/-! ## Loader: format check -/

/-- C3: for a texture that passes the container checks, `ktx_image_stop_load`
fails with "Unsupported image format" exactly when the channel count or the
type size is 0; and then it returns `FALSE` with no `g_malloc` call, no sample
decoded, nothing stored and no pixbuf created. -/
theorem unsupported_format_iff (host : Host) (texture : Texture)
    (hchk : passes_container_checks texture) :
    ((ktx_image_stop_load host texture).error = some "Unsupported image format" ↔
      (gl_format_channel_count (to_signed 32 texture.glFormat) = 0 ∨
        gl_type_sizeof texture.glType = 0)) ∧
    ((ktx_image_stop_load host texture).error = some "Unsupported image format" →
      (ktx_image_stop_load host texture).ret = false ∧
      (ktx_image_stop_load host texture).malloc = none ∧
      (ktx_image_stop_load host texture).conv.decoded = [] ∧
      (ktx_image_stop_load host texture).conv.stored = [] ∧
      (ktx_image_stop_load host texture).pixbuf = none) := by
  obtain ⟨h1, h2, h3, h4, h5, h6⟩ := hchk
  unfold ktx_image_stop_load
  simp only [h1, h2, h3, h4, h5, h6, ne_eq, not_true_eq_false, if_false, Bool.false_eq_true]
  by_cases hsup : gl_type_sizeof texture.glType = 0 ∨
      gl_format_channel_count (to_signed 32 texture.glFormat) = 0
  · simp only [hsup, if_true, fail_early, true_iff, true_implies, and_self, and_true]
    exact hsup.symm
  · have hne : ¬ (gl_format_channel_count (to_signed 32 texture.glFormat) = 0 ∨
        gl_type_sizeof texture.glType = 0) := fun h => hsup h.symm
    simp only [hsup, hne, if_false, iff_false]
    cases host.pixbuf_created <;> simp

/-- C3, at a concrete texture: a 2x1 `GL_RED` image with the unknown encoding
tag 77 is rejected before anything is allocated or decoded. -/
theorem unsupported_format_iff_witness :
    (ktx_image_stop_load plain_host
        (plain_texture GL_RED 77 2 1 (bytes [10, 20]))).error =
      some "Unsupported image format" ∧
    (ktx_image_stop_load plain_host
        (plain_texture GL_RED 77 2 1 (bytes [10, 20]))).malloc = none :=
  have h := unsupported_format_iff plain_host
    (plain_texture GL_RED 77 2 1 (bytes [10, 20])) (by decide)
  ⟨h.1.2 (Or.inr (by decide)), (h.2 (h.1.2 (Or.inr (by decide)))).2.1⟩

/-! ## Numeric decoder: dispatch -/

/-- The `default` label of `read_gl_type` is selected exactly by the tags that
are none of its nine case labels. -/
theorem read_gl_type_case_default_iff (t : Nat) :
    read_gl_type_case t = ReadCase.default ↔
      (t ≠ GL_BYTE ∧ t ≠ GL_UNSIGNED_BYTE ∧ t ≠ GL_SHORT ∧ t ≠ GL_UNSIGNED_SHORT ∧
        t ≠ GL_HALF_FLOAT ∧ t ≠ GL_INT ∧ t ≠ GL_UNSIGNED_INT ∧ t ≠ GL_FLOAT ∧
        t ≠ GL_DOUBLE) := by
  unfold read_gl_type_case
  split_ifs <;> simp [*]

/-- The tags `gl_type_sizeof` accepts are its ten case labels. -/
theorem gl_type_sizeof_ne_zero_iff (t : Nat) :
    gl_type_sizeof t ≠ 0 ↔
      (t = GL_BYTE ∨ t = GL_UNSIGNED_BYTE ∨ t = GL_SHORT ∨ t = GL_UNSIGNED_SHORT ∨
        t = GL_HALF_FLOAT ∨ t = GL_INT ∨ t = GL_UNSIGNED_INT ∨ t = GL_FIXED ∨
        t = GL_FLOAT ∨ t = GL_DOUBLE) := by
  unfold gl_type_sizeof
  simp only [GL_BYTE, GL_UNSIGNED_BYTE, GL_SHORT, GL_UNSIGNED_SHORT, GL_HALF_FLOAT,
    GL_INT, GL_UNSIGNED_INT, GL_FIXED, GL_FLOAT, GL_DOUBLE]
  split_ifs <;> omega

/-- C4: the encoding tag `GL_FIXED` is accepted by `gl_type_sizeof` (width 4)
but has no case in `read_gl_type`: it is the one accepted tag that the switch
sends to its `default` label, where every sample decodes to 0; a 1x1 `GL_RGB`
texture of that encoding passes the format check, has `read_gl_type` called at
offsets 0, 4 and 8, and is stored as three zero bytes whatever its data. -/
theorem read_gl_type_fixed_default :
    gl_type_sizeof GL_FIXED = 4 ∧
    read_gl_type_case GL_FIXED = ReadCase.default ∧
    (∀ t : Nat, (gl_type_sizeof t ≠ 0 ∧ read_gl_type_case t = ReadCase.default) ↔
      t = GL_FIXED) ∧
    (∀ data : Nat → Nat, read_gl_type data GL_FIXED = 0) ∧
    (∀ data : Nat → Nat,
      (ktx_image_stop_load plain_host (plain_texture GL_RGB GL_FIXED 1 1 data)).ret = true ∧
      (ktx_image_stop_load plain_host (plain_texture GL_RGB GL_FIXED 1 1 data)).conv.decoded
        = [0, 4, 8] ∧
      (ktx_image_stop_load plain_host (plain_texture GL_RGB GL_FIXED 1 1 data)).conv.stored
        = [(0, 0), (1, 0), (2, 0)]) := by
  have hcase : read_gl_type_case GL_FIXED = ReadCase.default := by decide
  have hfix : ∀ d : Nat → Nat, read_gl_type d GL_FIXED = 0 := fun d => by
    simp only [read_gl_type, hcase]
  have hc : gl_format_channel_count (to_signed 32 GL_RGB) = 3 := by decide
  have ht : gl_type_sizeof GL_FIXED = 4 := by decide
  refine ⟨ht, hcase, ?_, hfix, fun data => ?_⟩
  · intro t
    constructor
    · rintro ⟨hsz, hdef⟩
      have hno := (read_gl_type_case_default_iff t).1 hdef
      have hin := (gl_type_sizeof_ne_zero_iff t).1 hsz
      simp only [GL_BYTE, GL_UNSIGNED_BYTE, GL_SHORT, GL_UNSIGNED_SHORT, GL_HALF_FLOAT,
        GL_INT, GL_UNSIGNED_INT, GL_FIXED, GL_FLOAT, GL_DOUBLE] at hno hin ⊢
      omega
    · rintro rfl
      exact ⟨by decide, hcase⟩
  · simp [ktx_image_stop_load, plain_texture, plain_host, KTX_SUCCESS, hc, ht,
      convert_image, for_range, convert_pixel, read_pixel, write_pixel, reorder_pixel,
      hfix, to_unsigned]

/-- C10: a sample holding the byte `x`, with `x` in `[0, 255]`, decodes to `x`
under `GL_UNSIGNED_BYTE`. -/
theorem read_gl_type_unsigned_byte (data : Nat → Nat) (x : Nat) (hx : x ≤ 255)
    (hdata : data 0 = x) : read_gl_type data GL_UNSIGNED_BYTE = x := by
  have hcase : read_gl_type_case GL_UNSIGNED_BYTE = ReadCase.unsigned_byte := by decide
  simp only [read_gl_type, hcase, load_u8, hdata]
  omega

/-- C10, at the byte 200. -/
theorem read_gl_type_unsigned_byte_witness :
    read_gl_type (bytes [200]) GL_UNSIGNED_BYTE = 200 :=
  read_gl_type_unsigned_byte (bytes [200]) 200 (by decide) rfl

/-! ## Conversion loop: closed form -/

/-- A loop whose body ignores its counter iterates the body. -/
theorem for_range_const {σ : Type} (n : Nat) (f : σ → σ) (s : σ) :
    for_range n (fun _ => f) s = f^[n] s := by
  induction n with
  | zero => rfl
  | succ k ih => rw [Function.iterate_succ_apply', ← ih]; rfl

/-- Adding to a wrapped `unsigned` wraps to the same value as adding to the
unwrapped one. -/
theorem to_unsigned_add_left (a b : Nat) :
    to_unsigned (to_unsigned a + b) = to_unsigned (a + b) := by
  unfold to_unsigned; omega

/-- The read loop in closed form: slot `i` of the scratch pixel holds the sample
decoded at offset `a + i * ts` for `i < c` and 0 otherwise; the cursor advances
by `c * ts`. -/
theorem read_pixel_eq (src : Nat → Nat) (t ts c a : Nat) (s : Conv)
    (hs : s.src_offset = to_unsigned a) :
    read_pixel src t ts c s =
      ([0, 1, 2, 3].map (fun i =>
          if i < c then read_gl_type (ptr_add src (to_unsigned (a + i * ts))) t else 0),
       { s with
         src_offset := to_unsigned (a + c * ts)
         decoded := s.decoded ++ (List.range c).map (fun i => to_unsigned (a + i * ts)) }) := by
  unfold read_pixel
  induction c with
  | zero =>
    cases s
    simp_all [for_range]
  | succ c ih =>
    rw [for_range, ih]
    simp only [List.map_cons, List.map_nil, to_unsigned_add_left,
      List.range_succ, List.map_append, List.append_assoc]
    refine Prod.ext ?_ ?_
    · clear ih
      rcases c with _ | _ | _ | _ | c <;> simp
    · simp
      rw [Nat.add_mul, Nat.one_mul, Nat.add_assoc]

/-- The write loop in closed form: `d` stores at consecutive indices from the
cursor on, of the first `d` scratch slots. -/
theorem write_pixel_eq (d b : Nat) (rgba : List Nat) (s : Conv)
    (hs : s.dst_offset = to_unsigned b) :
    write_pixel d rgba s =
      { s with
        dst_offset := to_unsigned (b + d)
        stored := s.stored ++
          (List.range d).map (fun j => (to_unsigned (b + j), rgba.getD j 0)) } := by
  unfold write_pixel
  induction d with
  | zero =>
    cases s
    simp_all [for_range]
  | succ d ih =>
    rw [for_range, ih]
    simp [to_unsigned_add_left, List.range_succ, Nat.add_assoc]

/-- Slot `j` of a reordered scratch pixel is slot `channel_source f j` of the
pixel read. -/
theorem reorder_pixel_getD (f : Nat) (g : Nat → Nat) (j : Nat) (hj : j < 4) :
    (reorder_pixel f ([0, 1, 2, 3].map g)).getD j 0 = g (channel_source f j) := by
  unfold reorder_pixel channel_source
  have h : j = 0 ∨ j = 1 ∨ j = 2 ∨ j = 3 := by omega
  by_cases hf : f = GL_BGR ∨ f = GL_BGRA <;> rcases h with rfl | rfl | rfl | rfl <;>
    simp [hf]

/-- The destination channel count is between 1 and 4. -/
theorem dst_channel_count_bounds (texture : Texture) :
    0 < dst_channel_count texture ∧ dst_channel_count texture ≤ 4 := by
  unfold dst_channel_count; split_ifs <;> omega

/-- One pixel of conversion takes the state after `k` pixels to the state after
`k + 1`. -/
theorem convert_pixel_after (texture : Texture) (k : Nat) :
    convert_pixel (src_data texture) texture.glFormat texture.glType
        (gl_type_sizeof texture.glType) (src_channel_count texture)
        (dst_channel_count texture) (after_pixels texture k) =
      after_pixels texture (k + 1) := by
  obtain ⟨hd0, hd4⟩ := dst_channel_count_bounds texture
  unfold convert_pixel
  rw [read_pixel_eq _ _ _ _ (k * (src_channel_count texture * gl_type_sizeof texture.glType)) _ rfl]
  rw [write_pixel_eq _ (k * dst_channel_count texture) _ _ rfl]
  simp only [after_pixels, Conv.mk.injEq]
  refine ⟨by congr 1; ring, by congr 1; ring, ?_, ?_⟩
  · rw [Nat.succ_mul, List.range_add, List.map_append, List.map_map]
    congr 1
    apply List.map_congr_left
    intro i _
    simp only [Function.comp]
    congr 1; ring
  · rw [Nat.succ_mul, List.range_add, List.map_append, List.map_map]
    congr 1
    apply List.map_congr_left
    intro j hj
    have hj' : j < dst_channel_count texture := List.mem_range.1 hj
    simp only [Function.comp]
    rw [reorder_pixel_getD _ _ _ (by omega)]
    have h1 : (k * dst_channel_count texture + j) / dst_channel_count texture = k := by
      rw [Nat.mul_comm, Nat.mul_add_div hd0, Nat.div_eq_of_lt hj', Nat.add_zero]
    have h2 : (k * dst_channel_count texture + j) % dst_channel_count texture = j := by
      rw [Nat.mul_comm, Nat.mul_add_mod, Nat.mod_eq_of_lt hj']
    rw [h1, h2]
    unfold source_channel
    split_ifs
    · rw [Nat.add_mul, Nat.mul_assoc]
    · rfl

/-- The nested loops, started from the initial state, end in the state after
`baseWidth * baseHeight` pixels. -/
theorem convert_image_eq (texture : Texture) :
    convert_image (src_data texture) texture.glFormat texture.glType
        (gl_type_sizeof texture.glType) (src_channel_count texture)
        (dst_channel_count texture) texture.baseWidth texture.baseHeight
        { src_offset := 0, dst_offset := 0, decoded := [], stored := [] } =
      after_pixels texture (texture.baseWidth * texture.baseHeight) := by
  unfold convert_image
  have hstep : ∀ n : Nat,
      (convert_pixel (src_data texture) texture.glFormat texture.glType
        (gl_type_sizeof texture.glType) (src_channel_count texture)
        (dst_channel_count texture))^[n] (after_pixels texture 0) =
      after_pixels texture n := by
    intro n
    induction n with
    | zero => rfl
    | succ n ih => rw [Function.iterate_succ_apply', ih, convert_pixel_after]
  have h0 : ({ src_offset := 0, dst_offset := 0, decoded := [], stored := [] } : Conv) =
      after_pixels texture 0 := by
    simp [after_pixels, to_unsigned]
  rw [h0]
  simp only [for_range_const]
  rw [← Function.iterate_mul, hstep]

/-- On a texture that passes the container checks and whose format both
classifiers accept, `ktx_image_stop_load` reaches the conversion: its results
in closed form. -/
theorem stop_load_converts (host : Host) (texture : Texture)
    (hchk : passes_container_checks texture) (hsup : supported texture) :
    (ktx_image_stop_load host texture).dst_channel_count = dst_channel_count texture ∧
    (ktx_image_stop_load host texture).conv =
      after_pixels texture (texture.baseWidth * texture.baseHeight) ∧
    (ktx_image_stop_load host texture).malloc =
      some (to_gsize (1 * 4 * texture.baseWidth * texture.baseHeight)) ∧
    (ktx_image_stop_load host texture).pixbuf =
      some { has_alpha := decide (dst_channel_count texture = 4), bits_per_sample := 8
             width := to_signed 32 texture.baseWidth
             height := to_signed 32 texture.baseHeight
             rowstride :=
               to_signed 32 (to_unsigned (texture.baseWidth * dst_channel_count texture)) } := by
  obtain ⟨h1, h2, h3, h4, h5, h6⟩ := hchk
  obtain ⟨hc, ht⟩ := hsup
  have hconv := convert_image_eq texture
  unfold src_channel_count at hc
  unfold dst_channel_count src_channel_count at hconv ⊢
  unfold src_data at hconv
  unfold ktx_image_stop_load
  simp only [h1, h2, h3, h4, h5, h6, ne_eq, not_true_eq_false, if_false, Bool.false_eq_true,
    hc, ht, or_self]
  cases host.pixbuf_created <;> simp [hconv]

/-- C5: on a texture that passes the container checks and has a supported
format, the destination channel count of `ktx_image_stop_load` is 4 when the
source channel count is 4, which is the case exactly for `GL_RGBA` and
`GL_BGRA`, and 3 when the source channel count is 1, 2 or 3; it is never
anything but 3 or 4. -/
theorem dst_channel_count_spec (host : Host) (texture : Texture)
    (hchk : passes_container_checks texture) (hsup : supported texture) :
    (src_channel_count texture = 4 ↔
      (to_signed 32 texture.glFormat = GL_RGBA ∨ to_signed 32 texture.glFormat = GL_BGRA)) ∧
    (src_channel_count texture = 4 →
      (ktx_image_stop_load host texture).dst_channel_count = 4) ∧
    ((src_channel_count texture = 1 ∨ src_channel_count texture = 2 ∨
        src_channel_count texture = 3) →
      (ktx_image_stop_load host texture).dst_channel_count = 3) ∧
    ((ktx_image_stop_load host texture).dst_channel_count = 3 ∨
      (ktx_image_stop_load host texture).dst_channel_count = 4) := by
  rw [(stop_load_converts host texture hchk hsup).1]
  unfold dst_channel_count
  refine ⟨?_, ?_, ?_, ?_⟩
  · unfold src_channel_count gl_format_channel_count
    simp only [GL_RED, GL_STENCIL_INDEX, GL_DEPTH_COMPONENT, GL_RG, GL_RGB, GL_BGR,
      GL_RGBA, GL_BGRA]
    push_cast
    split_ifs <;> first | omega | tauto
  · intro h; simp [h]
  · intro h; split_ifs <;> omega
  · split_ifs <;> simp

/-- C5, at concrete textures: a `GL_BGRA` image gets 4 destination channels, a
`GL_RG` image gets 3. -/
theorem dst_channel_count_spec_witness :
    (ktx_image_stop_load plain_host
      (plain_texture GL_BGRA GL_UNSIGNED_BYTE 1 1 (bytes [1, 2, 3, 4]))).dst_channel_count = 4 ∧
    (ktx_image_stop_load plain_host
      (plain_texture GL_RG GL_UNSIGNED_BYTE 1 1 (bytes [1, 2]))).dst_channel_count = 3 :=
  ⟨(dst_channel_count_spec plain_host
      (plain_texture GL_BGRA GL_UNSIGNED_BYTE 1 1 (bytes [1, 2, 3, 4]))
      (by decide) (by decide)).2.1 (by decide),
   (dst_channel_count_spec plain_host
      (plain_texture GL_RG GL_UNSIGNED_BYTE 1 1 (bytes [1, 2]))
      (by decide) (by decide)).2.2.1 (by decide)⟩

/-- Truncating division by a positive constant, by the sign of the dividend. -/
theorem tdiv_of_pos (v k : Int) (hk : 0 < k) :
    Int.tdiv v k = if 0 ≤ v then v / k else -((-v) / k) := by
  split_ifs with h
  · exact Int.tdiv_eq_ediv h (le_of_lt hk)
  · have h' : 0 ≤ -v := by omega
    have := Int.neg_tdiv (-v) k
    rw [neg_neg] at this
    rw [this, Int.tdiv_eq_ediv h' (le_of_lt hk)]

/-- The label selected for each tag that has a case in `read_gl_type`. -/
theorem read_gl_type_case_labels :
    read_gl_type_case GL_BYTE = ReadCase.byte ∧
    read_gl_type_case GL_UNSIGNED_BYTE = ReadCase.unsigned_byte ∧
    read_gl_type_case GL_SHORT = ReadCase.short ∧
    read_gl_type_case GL_UNSIGNED_SHORT = ReadCase.unsigned_short ∧
    read_gl_type_case GL_HALF_FLOAT = ReadCase.half_float ∧
    read_gl_type_case GL_INT = ReadCase.int ∧
    read_gl_type_case GL_UNSIGNED_INT = ReadCase.unsigned_int ∧
    read_gl_type_case GL_FLOAT = ReadCase.float ∧
    read_gl_type_case GL_DOUBLE = ReadCase.double := by
  decide

/-- C11: an unsigned 16-bit sample `v`, with `v` in `[0, 65535]`, decodes under
`GL_UNSIGNED_SHORT` to the quotient `v / 257`, which is at most 255; the sample
0 decodes to 0 and the sample 65535 to 255. -/
theorem read_gl_type_unsigned_short (data : Nat → Nat) (v : Nat) (hv : v ≤ 65535)
    (hdata : load_u16 data = v) :
    read_gl_type data GL_UNSIGNED_SHORT = v / 257 ∧ v / 257 ≤ 255 ∧
    (v = 0 → read_gl_type data GL_UNSIGNED_SHORT = 0) ∧
    (v = 65535 → read_gl_type data GL_UNSIGNED_SHORT = 255) := by
  have hcase := read_gl_type_case_labels.2.2.2.1
  simp only [read_gl_type, hcase, hdata]
  omega

/-- C11, at the samples 65535 and 0. -/
theorem read_gl_type_unsigned_short_witness :
    read_gl_type (bytes [0xff, 0xff]) GL_UNSIGNED_SHORT = 255 ∧
    read_gl_type (bytes [0, 0]) GL_UNSIGNED_SHORT = 0 :=
  ⟨(read_gl_type_unsigned_short (bytes [0xff, 0xff]) 65535 (by decide) (by decide)).2.2.2 rfl,
   (read_gl_type_unsigned_short (bytes [0, 0]) 0 (by decide) (by decide)).2.2.1 rfl⟩

/-- C12: a signed 8-bit sample `v`, with `v` in `[-128, 127]`, stored in two's
complement, decodes under `GL_BYTE` to `max (2 * v) 0`: to 0 when `v` is
negative and to exactly `2 * v` when it is not. -/
theorem read_gl_type_byte (data : Nat → Nat) (v : Int) (hlo : -128 ≤ v) (hhi : v ≤ 127)
    (hdata : (load_u8 data : Int) = v % 256) :
    ((read_gl_type data GL_BYTE : Nat) : Int) = max (2 * v) 0 ∧
    (v < 0 → read_gl_type data GL_BYTE = 0) ∧
    (0 ≤ v → ((read_gl_type data GL_BYTE : Nat) : Int) = 2 * v) := by
  have hcase := read_gl_type_case_labels.1
  have hb : load_u8 data < 256 := by unfold load_u8; omega
  simp only [read_gl_type, hcase, to_signed, c_max, int_to_guchar]
  norm_num
  split_ifs <;> omega

/-- C12, at the samples -5 and 100. -/
theorem read_gl_type_byte_witness :
    read_gl_type (bytes [251]) GL_BYTE = 0 ∧
    ((read_gl_type (bytes [100]) GL_BYTE : Nat) : Int) = 2 * 100 :=
  ⟨(read_gl_type_byte (bytes [251]) (-5) (by decide) (by decide) (by decide)).2.1 (by decide),
   (read_gl_type_byte (bytes [100]) 100 (by decide) (by decide) (by decide)).2.2 (by decide)⟩

/-- C13: a signed 16-bit sample `v` decodes under `GL_SHORT` to 0 when `v` is
negative and to the quotient `v / 128` when it is not; a signed 32-bit sample
`v` decodes under `GL_INT` to 0 when `v` is negative and to the quotient
`v / 8421504` when it is not.  The samples are stored in two's complement. -/
theorem read_gl_type_short_int (data : Nat → Nat) (v : Int) :
    (-32768 ≤ v → v ≤ 32767 → (load_u16 data : Int) = v % 65536 →
      (v < 0 → read_gl_type data GL_SHORT = 0) ∧
      (0 ≤ v → ((read_gl_type data GL_SHORT : Nat) : Int) = v / 128)) ∧
    (-2147483648 ≤ v → v ≤ 2147483647 → (load_u32 data : Int) = v % 4294967296 →
      (v < 0 → read_gl_type data GL_INT = 0) ∧
      (0 ≤ v → ((read_gl_type data GL_INT : Nat) : Int) = v / 8421504)) := by
  constructor
  · intro hlo hhi hdata
    have hcase := read_gl_type_case_labels.2.2.1
    have hb : load_u16 data < 65536 := by unfold load_u16; omega
    have hs : to_signed 16 (load_u16 data) = v := by
      unfold to_signed; norm_num; split_ifs <;> omega
    simp only [read_gl_type, hcase, hs, c_max, int_to_guchar,
      tdiv_of_pos v 128 (by norm_num)]
    constructor <;> intro h <;> split_ifs <;> omega
  · intro hlo hhi hdata
    have hcase := read_gl_type_case_labels.2.2.2.2.2.1
    have hb : load_u32 data < 4294967296 := by unfold load_u32; omega
    have hs : to_signed 32 (load_u32 data) = v := by
      unfold to_signed; norm_num; split_ifs <;> omega
    simp only [read_gl_type, hcase, hs, c_max, int_to_guchar,
      tdiv_of_pos v 8421504 (by norm_num)]
    constructor <;> intro h <;> split_ifs <;> omega

/-- C13, at concrete samples: the 16-bit samples -2 and 1000 decode to 0 and 7,
the 32-bit samples -1 and 100000000 decode to 0 and 11. -/
theorem read_gl_type_short_int_witness :
    read_gl_type (bytes [0xfe, 0xff]) GL_SHORT = 0 ∧
    ((read_gl_type (bytes [0xe8, 0x03]) GL_SHORT : Nat) : Int) = 1000 / 128 ∧
    read_gl_type (bytes [0xff, 0xff, 0xff, 0xff]) GL_INT = 0 ∧
    ((read_gl_type (bytes [0x00, 0xe1, 0xf5, 0x05]) GL_INT : Nat) : Int) =
      100000000 / 8421504 :=
  ⟨((read_gl_type_short_int (bytes [0xfe, 0xff]) (-2)).1
      (by decide) (by decide) (by decide)).1 (by decide),
   ((read_gl_type_short_int (bytes [0xe8, 0x03]) 1000).1
      (by decide) (by decide) (by decide)).2 (by decide),
   ((read_gl_type_short_int (bytes [0xff, 0xff, 0xff, 0xff]) (-1)).2
      (by decide) (by decide) (by decide)).1 (by decide),
   ((read_gl_type_short_int (bytes [0x00, 0xe1, 0xf5, 0x05]) 100000000).2
      (by decide) (by decide) (by decide)).2 (by decide)⟩

/-- The integer cases of `read_gl_type`, with sample and result bounds: the
decoded byte is the conversion to `guchar` of `integer_result`, the sample lies
in the range of its encoding, and the result lies in `[0, 255]`. -/
theorem integer_cases (data : Nat → Nat) (type : Nat) (ht : integer_encoding type) :
    read_gl_type data type = int_to_guchar (integer_result data type) ∧
    integer_sample data type ≤ largest_sample type ∧
    0 ≤ integer_result data type ∧ integer_result data type ≤ 255 := by
  obtain ⟨h1, h2, h3, h4, -, h6, h7, -, -⟩ := read_gl_type_case_labels
  have b8 : load_u8 data < 256 := by unfold load_u8; omega
  have b16 : load_u16 data < 65536 := by unfold load_u16; omega
  have b32 : load_u32 data < 4294967296 := by unfold load_u32; omega
  rcases ht with rfl | rfl | rfl | rfl | rfl | rfl
  · simp only [read_gl_type, integer_result, integer_sample, largest_sample, h1,
      to_signed, c_max, int_to_guchar]
    norm_num
    split_ifs <;> omega
  · simp only [read_gl_type, integer_result, integer_sample, largest_sample, h2,
      int_to_guchar]
    omega
  · simp only [read_gl_type, integer_result, integer_sample, largest_sample, h3,
      to_signed, c_max, int_to_guchar, tdiv_of_pos _ 128 (by norm_num)]
    norm_num
    split_ifs <;> omega
  · simp only [read_gl_type, integer_result, integer_sample, largest_sample, h4,
      int_to_guchar]
    omega
  · simp only [read_gl_type, integer_result, integer_sample, largest_sample, h6,
      to_signed, c_max, int_to_guchar, tdiv_of_pos _ 8421504 (by norm_num)]
    norm_num
    split_ifs <;> omega
  · simp only [read_gl_type, integer_result, integer_sample, largest_sample, h7,
      int_to_guchar]
    omega

/-- C14: for each of the six integer encodings and every sample, the integer
that `read_gl_type` computes before it is narrowed to `guchar` (`2 * v`, `v`,
`v / 128`, `v / 257`, `v / 8421504`, `v / 16843009`, after the lower clamp at 0)
lies in `[0, 255]`, so the byte returned is that integer: narrowing never wraps. -/
theorem integer_result_in_range (data : Nat → Nat) (type : Nat)
    (ht : integer_encoding type) :
    read_gl_type data type = int_to_guchar (integer_result data type) ∧
    0 ≤ integer_result data type ∧ integer_result data type ≤ 255 ∧
    ((read_gl_type data type : Nat) : Int) = integer_result data type := by
  obtain ⟨hread, -, hlo, hhi⟩ := integer_cases data type ht
  refine ⟨hread, hlo, hhi, ?_⟩
  rw [hread]
  unfold int_to_guchar
  omega

/-- C14, at the largest signed 16-bit sample: the integer before narrowing is
255 and so is the byte returned. -/
theorem integer_result_in_range_witness :
    integer_result (bytes [0xff, 0x7f]) GL_SHORT ≤ 255 ∧
    ((read_gl_type (bytes [0xff, 0x7f]) GL_SHORT : Nat) : Int) =
      integer_result (bytes [0xff, 0x7f]) GL_SHORT :=
  have h := integer_result_in_range (bytes [0xff, 0x7f]) GL_SHORT (by decide)
  ⟨h.2.2.1, h.2.2.2⟩

/-- C15, as stated, fails: the largest signed 8-bit sample, 127, decodes under
`GL_BYTE` to 254, not to 255. -/
theorem byte_full_scale :
    integer_sample (bytes [127]) GL_BYTE = 127 ∧
    largest_sample GL_BYTE = 127 ∧
    read_gl_type (bytes [127]) GL_BYTE = 254 ∧
    read_gl_type (bytes [127]) GL_BYTE ≠ 255 := by
  refine ⟨by decide, by decide, by decide, by decide⟩

/-- C15, amended: for each of the six integer encodings no sample exceeds the
largest sample of the encoding (127, 255, 32767, 65535, 2147483647, 4294967295),
the sample 0 decodes to 0, and the largest sample decodes to 255, except under
`GL_BYTE`, where it decodes to 254. -/
theorem full_scale_spec (data : Nat → Nat) (type : Nat) (ht : integer_encoding type) :
    integer_sample data type ≤ largest_sample type ∧
    (integer_sample data type = 0 → read_gl_type data type = 0) ∧
    (integer_sample data type = largest_sample type →
      read_gl_type data type = if type = GL_BYTE then 254 else 255) := by
  obtain ⟨hread, hmax, -, -⟩ := integer_cases data type ht
  obtain ⟨h1, h2, h3, h4, -, h6, h7, -, -⟩ := read_gl_type_case_labels
  refine ⟨hmax, ?_, ?_⟩
  · intro h0
    rw [hread]
    rcases ht with rfl | rfl | rfl | rfl | rfl | rfl
    · simp only [integer_result, h1, h0]; decide
    · simp only [integer_result, h2, h0]; decide
    · simp only [integer_result, h3, h0]; decide
    · simp only [integer_result, h4, h0]; decide
    · simp only [integer_result, h6, h0]; decide
    · simp only [integer_result, h7, h0]; decide
  · intro hm
    rw [hread]
    rcases ht with rfl | rfl | rfl | rfl | rfl | rfl
    · simp only [integer_result, h1, hm, largest_sample]; decide
    · simp only [integer_result, h2, hm, largest_sample]; decide
    · simp only [integer_result, h3, hm, largest_sample]; decide
    · simp only [integer_result, h4, hm, largest_sample]; decide
    · simp only [integer_result, h6, hm, largest_sample]; decide
    · simp only [integer_result, h7, hm, largest_sample]; decide

/-- C15, amended, at the largest unsigned 32-bit sample, which decodes to 255,
and at the largest signed 8-bit sample, which decodes to 254. -/
theorem full_scale_spec_witness :
    read_gl_type (bytes [0xff, 0xff, 0xff, 0xff]) GL_UNSIGNED_INT = 255 ∧
    read_gl_type (bytes [127]) GL_BYTE = 254 :=
  ⟨(full_scale_spec (bytes [0xff, 0xff, 0xff, 0xff]) GL_UNSIGNED_INT (by decide)).2.2
      (by decide),
   (full_scale_spec (bytes [127]) GL_BYTE (by decide)).2.2 (by decide)⟩

/-- C20: for each of the six integer encodings `read_gl_type` is monotone in the
sample: a sample that is not larger decodes to a byte that is not larger. -/
theorem read_gl_type_monotone (data₁ data₂ : Nat → Nat) (type : Nat)
    (ht : integer_encoding type)
    (hle : integer_sample data₁ type ≤ integer_sample data₂ type) :
    read_gl_type data₁ type ≤ read_gl_type data₂ type := by
  obtain ⟨hr1, -, hlo1, hhi1⟩ := integer_cases data₁ type ht
  obtain ⟨hr2, -, hlo2, hhi2⟩ := integer_cases data₂ type ht
  obtain ⟨h1, h2, h3, h4, -, h6, h7, -, -⟩ := read_gl_type_case_labels
  have hmono : integer_result data₁ type ≤ integer_result data₂ type := by
    rcases ht with rfl | rfl | rfl | rfl | rfl | rfl
    · simp only [integer_result, h1, c_max] at *
      split_ifs <;> omega
    · simp only [integer_result, h2] at *
      omega
    · simp only [integer_result, h3, c_max, tdiv_of_pos _ 128 (by norm_num)] at *
      split_ifs <;> omega
    · simp only [integer_result, h4] at *
      omega
    · simp only [integer_result, h6, c_max, tdiv_of_pos _ 8421504 (by norm_num)] at *
      split_ifs <;> omega
    · simp only [integer_result, h7] at *
      omega
  rw [hr1, hr2]
  unfold int_to_guchar
  omega

/-- C20, at the signed 16-bit samples -2 and 1000. -/
theorem read_gl_type_monotone_witness :
    read_gl_type (bytes [0xfe, 0xff]) GL_SHORT ≤ read_gl_type (bytes [0xe8, 0x03]) GL_SHORT :=
  read_gl_type_monotone (bytes [0xfe, 0xff]) (bytes [0xe8, 0x03]) GL_SHORT (by decide)
    (by decide)

/-! ## Loader: container checks -/

/-- C17: for a texture that was parsed and is two-dimensional,
`ktx_image_stop_load` returns `FALSE` with the error "Compressed textures are
not supported" when the texture is flagged compressed, and with the error
"Cubemaps are not supported" when it is not compressed and flagged as a cubemap;
in both cases `g_malloc` is not called, nothing is decoded or stored, no pixbuf
is created and `prepared_func` is not called. -/
theorem compressed_cubemap_rejected (host : Host) (texture : Texture)
    (hparse : texture.create_result = KTX_SUCCESS) (hdim : texture.numDimensions = 2) :
    (texture.isCompressed = true →
      (ktx_image_stop_load host texture).ret = false ∧
      (ktx_image_stop_load host texture).error =
        some "Compressed textures are not supported" ∧
      (ktx_image_stop_load host texture).malloc = none ∧
      (ktx_image_stop_load host texture).conv.decoded = [] ∧
      (ktx_image_stop_load host texture).conv.stored = [] ∧
      (ktx_image_stop_load host texture).pixbuf = none ∧
      (ktx_image_stop_load host texture).prepared_func_called = false) ∧
    (texture.isCompressed = false → texture.isCubemap = true →
      (ktx_image_stop_load host texture).ret = false ∧
      (ktx_image_stop_load host texture).error = some "Cubemaps are not supported" ∧
      (ktx_image_stop_load host texture).malloc = none ∧
      (ktx_image_stop_load host texture).conv.decoded = [] ∧
      (ktx_image_stop_load host texture).conv.stored = [] ∧
      (ktx_image_stop_load host texture).pixbuf = none ∧
      (ktx_image_stop_load host texture).prepared_func_called = false) := by
  constructor
  · intro hc
    simp [ktx_image_stop_load, hparse, hdim, hc, fail_early]
  · intro hc hq
    simp [ktx_image_stop_load, hparse, hdim, hc, hq, fail_early]

/-- C17, at a compressed texture and at an uncompressed cubemap, both with a
supported format and image data. -/
theorem compressed_cubemap_rejected_witness :
    (ktx_image_stop_load plain_host
      { plain_texture GL_RGB GL_UNSIGNED_BYTE 1 1 (bytes [1, 2, 3]) with
        isCompressed := true }).error = some "Compressed textures are not supported" ∧
    (ktx_image_stop_load plain_host
      { plain_texture GL_RGB GL_UNSIGNED_BYTE 1 1 (bytes [1, 2, 3]) with
        isCubemap := true }).malloc = none :=
  ⟨((compressed_cubemap_rejected plain_host
      { plain_texture GL_RGB GL_UNSIGNED_BYTE 1 1 (bytes [1, 2, 3]) with
        isCompressed := true } rfl rfl).1 rfl).2.1,
   ((compressed_cubemap_rejected plain_host
      { plain_texture GL_RGB GL_UNSIGNED_BYTE 1 1 (bytes [1, 2, 3]) with
        isCubemap := true } rfl rfl).2 rfl rfl).2.2.1⟩

/-! ## Conversion loop: memory safety -/

/-- The scratch pixel keeps its four elements through the read loop. -/
theorem read_pixel_length (src : Nat → Nat) (t ts c : Nat) (s : Conv) :
    (read_pixel src t ts c s).1.length = 4 := by
  unfold read_pixel
  induction c with
  | zero => rfl
  | succ c ih => rw [for_range]; simpa using ih

/-- With at most four source channels, no store of the read loop is out of
bounds. -/
theorem read_pixel_checked_eq (src : Nat → Nat) (t ts c : Nat) (s : Conv) (hc : c ≤ 4) :
    read_pixel_checked src t ts c s = some (read_pixel src t ts c s) := by
  induction c with
  | zero => rfl
  | succ c ih =>
    have hlen := read_pixel_length src t ts c s
    have ih' := ih (by omega)
    unfold read_pixel_checked read_pixel at ih' ⊢
    unfold read_pixel at hlen
    rw [for_range, ih', for_range]
    simp only [Option.some_bind, hlen]
    rw [if_pos (by omega)]

/-- Reordering keeps the length of the scratch pixel. -/
theorem reorder_pixel_length (f : Nat) (rgba : List Nat) :
    (reorder_pixel f rgba).length = rgba.length := by
  unfold reorder_pixel
  split_ifs <;> simp

/-- On a scratch pixel of four elements the reordering is in bounds. -/
theorem reorder_pixel_checked_eq (f : Nat) (rgba : List Nat) (hlen : rgba.length = 4) :
    reorder_pixel_checked f rgba = some (reorder_pixel f rgba) := by
  unfold reorder_pixel_checked
  split_ifs with h1 h2
  · rfl
  · omega
  · unfold reorder_pixel; rw [if_neg h1]

/-- When the `d` stores from index `b` on fit the buffer and `d` is at most the
length of the scratch pixel, no access of the write loop is out of bounds. -/
theorem write_pixel_checked_eq (size d b : Nat) (rgba : List Nat) (s : Conv)
    (hs : s.dst_offset = to_unsigned b) (hd : d ≤ rgba.length) (hfit : b + d ≤ size) :
    write_pixel_checked size d rgba s = some (write_pixel d rgba s) := by
  induction d with
  | zero => rfl
  | succ d ih =>
    have ih' := ih (by omega) (by omega)
    have hoff : (write_pixel d rgba s).dst_offset = to_unsigned (b + d) := by
      rw [write_pixel_eq d b rgba s hs]
    have hle : to_unsigned (b + d) ≤ b + d := Nat.mod_le _ _
    unfold write_pixel_checked write_pixel at ih' ⊢
    unfold write_pixel at hoff
    rw [for_range, ih', for_range]
    simp only [Option.some_bind, hoff]
    rw [if_pos ⟨by omega, by omega⟩]

/-- The source channel count is at most 4. -/
theorem src_channel_count_le (texture : Texture) : src_channel_count texture ≤ 4 := by
  unfold src_channel_count gl_format_channel_count
  split_ifs <;> omega

/-- One checked pixel from the state after `k` pixels, when the stores of the
first `k + 1` pixels fit the buffer. -/
theorem convert_pixel_checked_after (texture : Texture) (size k : Nat)
    (hfit : (k + 1) * dst_channel_count texture ≤ size) :
    convert_pixel_checked size (src_data texture) texture.glFormat texture.glType
        (gl_type_sizeof texture.glType) (src_channel_count texture)
        (dst_channel_count texture) (after_pixels texture k) =
      some (after_pixels texture (k + 1)) := by
  obtain ⟨-, hd4⟩ := dst_channel_count_bounds texture
  have hlen := read_pixel_length (src_data texture) texture.glType
    (gl_type_sizeof texture.glType) (src_channel_count texture) (after_pixels texture k)
  have hoff : (read_pixel (src_data texture) texture.glType (gl_type_sizeof texture.glType)
      (src_channel_count texture) (after_pixels texture k)).2.dst_offset =
      to_unsigned (k * dst_channel_count texture) := by
    rw [read_pixel_eq _ _ _ _
      (k * (src_channel_count texture * gl_type_sizeof texture.glType)) _ rfl]
    rfl
  unfold convert_pixel_checked
  rw [read_pixel_checked_eq _ _ _ _ _ (src_channel_count_le texture)]
  simp only [Option.some_bind]
  rw [reorder_pixel_checked_eq _ _ hlen]
  simp only [Option.some_bind]
  rw [write_pixel_checked_eq size _ (k * dst_channel_count texture) _ _ hoff
    (by rw [reorder_pixel_length, hlen]; exact hd4)
    (by rw [Nat.succ_mul] at hfit; exact hfit)]
  exact congrArg some (convert_pixel_after texture k)

/-- The checked loops, when the stores of all pixels fit the buffer, end like
the unchecked ones. -/
theorem convert_image_checked_eq (texture : Texture) (size : Nat)
    (hfit : texture.baseWidth * texture.baseHeight * dst_channel_count texture ≤ size) :
    convert_image_checked size (src_data texture) texture.glFormat texture.glType
        (gl_type_sizeof texture.glType) (src_channel_count texture)
        (dst_channel_count texture) texture.baseWidth texture.baseHeight
        { src_offset := 0, dst_offset := 0, decoded := [], stored := [] } =
      some (after_pixels texture (texture.baseWidth * texture.baseHeight)) := by
  unfold convert_image_checked
  have hstep : ∀ n : Nat, n ≤ texture.baseWidth * texture.baseHeight →
      (fun o : Option Conv =>
        o.bind (convert_pixel_checked size (src_data texture) texture.glFormat
          texture.glType (gl_type_sizeof texture.glType) (src_channel_count texture)
          (dst_channel_count texture)))^[n] (some (after_pixels texture 0)) =
      some (after_pixels texture n) := by
    intro n
    induction n with
    | zero => intro _; rfl
    | succ n ih =>
      intro hn
      rw [Function.iterate_succ_apply', ih (by omega)]
      simp only [Option.some_bind]
      apply convert_pixel_checked_after
      calc (n + 1) * dst_channel_count texture
          ≤ texture.baseWidth * texture.baseHeight * dst_channel_count texture :=
            Nat.mul_le_mul_right _ hn
        _ ≤ size := hfit
  have h0 : ({ src_offset := 0, dst_offset := 0, decoded := [], stored := [] } : Conv) =
      after_pixels texture 0 := by
    simp [after_pixels, to_unsigned]
  rw [h0]
  simp only [for_range_const]
  rw [← Function.iterate_mul, hstep _ (le_refl _)]

/-- C19: on a texture that passes the container checks and has a supported
format, with `4 * w * h` below `2 ^ 64` (no overflow of the size passed to
`g_malloc`), the conversion loop with every array access checked against the
buffer of `4 * w * h` bytes and the scratch pixel of 4 elements never fails and
ends in the state `ktx_image_stop_load` reaches; the source and destination
channel counts are at most 4, and every index stored to is below the size
allocated. -/
theorem conversion_in_bounds (host : Host) (texture : Texture)
    (hchk : passes_container_checks texture) (hsup : supported texture)
    (h64 : 4 * texture.baseWidth * texture.baseHeight < 2 ^ 64) :
    (ktx_image_stop_load host texture).malloc =
      some (4 * texture.baseWidth * texture.baseHeight) ∧
    convert_image_checked (4 * texture.baseWidth * texture.baseHeight)
        (src_data texture) texture.glFormat texture.glType
        (gl_type_sizeof texture.glType) (src_channel_count texture)
        (dst_channel_count texture) texture.baseWidth texture.baseHeight
        { src_offset := 0, dst_offset := 0, decoded := [], stored := [] } =
      some (ktx_image_stop_load host texture).conv ∧
    src_channel_count texture ≤ 4 ∧
    (ktx_image_stop_load host texture).dst_channel_count ≤ 4 ∧
    (∀ p ∈ (ktx_image_stop_load host texture).conv.stored,
      p.1 < 4 * texture.baseWidth * texture.baseHeight) := by
  obtain ⟨hd, hconv, hm, -⟩ := stop_load_converts host texture hchk hsup
  obtain ⟨hd0, hd4⟩ := dst_channel_count_bounds texture
  have hfit : texture.baseWidth * texture.baseHeight * dst_channel_count texture ≤
      4 * texture.baseWidth * texture.baseHeight := by
    calc texture.baseWidth * texture.baseHeight * dst_channel_count texture
        ≤ texture.baseWidth * texture.baseHeight * 4 := Nat.mul_le_mul_left _ hd4
      _ = 4 * texture.baseWidth * texture.baseHeight := by ring
  refine ⟨?_, ?_, src_channel_count_le texture, by rw [hd]; exact hd4, ?_⟩
  · rw [hm, Nat.one_mul]
    exact congrArg some (Nat.mod_eq_of_lt h64)
  · rw [hconv]
    exact convert_image_checked_eq texture _ hfit
  · intro p hp
    rw [hconv] at hp
    simp only [after_pixels, List.mem_map, List.mem_range] at hp
    obtain ⟨n, hn, rfl⟩ := hp
    have hle : to_unsigned n ≤ n := Nat.mod_le _ _
    show to_unsigned n < _
    omega

/-- C19, at the 2x1 `GL_RED` / `GL_UNSIGNED_BYTE` image: 8 bytes are allocated
and the checked loop ends in the state of the load, whose stores go to the
indices 0 to 5. -/
theorem conversion_in_bounds_witness :
    (ktx_image_stop_load plain_host
      (plain_texture GL_RED GL_UNSIGNED_BYTE 2 1 (bytes [10, 20]))).malloc = some 8 ∧
    (∀ p ∈ (ktx_image_stop_load plain_host
        (plain_texture GL_RED GL_UNSIGNED_BYTE 2 1 (bytes [10, 20]))).conv.stored,
      p.1 < 8) :=
  have h := conversion_in_bounds plain_host
    (plain_texture GL_RED GL_UNSIGNED_BYTE 2 1 (bytes [10, 20]))
    (by decide) (by decide) (by decide)
  ⟨h.1, h.2.2.2.2⟩

/-! ## Floating point: exact operations -/

/-- The digit count by fuel is right whenever the fuel is at least the number:
`k < 2 ^ L`, and `2 ^ (L - 1) ≤ k` for a non-zero `k`. -/
theorem bit_length_aux_spec (fuel k : Nat) (hk : k ≤ fuel) :
    k < 2 ^ bit_length_aux fuel k ∧
    (k ≠ 0 → 1 ≤ bit_length_aux fuel k ∧ 2 ^ (bit_length_aux fuel k - 1) ≤ k) := by
  induction fuel generalizing k with
  | zero =>
    have : k = 0 := by omega
    subst this
    simp [bit_length_aux]
  | succ fuel ih =>
    unfold bit_length_aux
    by_cases h0 : k = 0
    · subst h0; simp
    · rw [if_neg h0]
      obtain ⟨h1, h2⟩ := ih (k / 2) (by omega)
      refine ⟨?_, fun _ => ⟨by omega, ?_⟩⟩
      · rw [Nat.pow_succ]; omega
      · rw [Nat.add_sub_cancel]
        by_cases h20 : k / 2 = 0
        · have hz : bit_length_aux fuel (k / 2) = 0 := by
            rw [h20]; cases fuel <;> simp [bit_length_aux]
          rw [hz]; simp; omega
        · obtain ⟨h3, h4⟩ := h2 h20
          have : 2 ^ bit_length_aux fuel (k / 2) =
              2 * 2 ^ (bit_length_aux fuel (k / 2) - 1) := by
            rw [← Nat.pow_succ']; congr 1; omega
          omega

/-- A number is below two to the power of its digit count. -/
theorem lt_two_pow_bit_length (k : Nat) : k < 2 ^ bit_length k :=
  (bit_length_aux_spec k k (le_refl k)).1

/-- A non-zero number has a digit, and reaches two to the power of its digit
count less one. -/
theorem two_pow_le_of_ne_zero (k : Nat) (hk : k ≠ 0) :
    1 ≤ bit_length k ∧ 2 ^ (bit_length k - 1) ≤ k :=
  (bit_length_aux_spec k k (le_refl k)).2 hk

/-- A number below `2 ^ n` has at most `n` digits. -/
theorem bit_length_le (k n : Nat) (hk : k < 2 ^ n) : bit_length k ≤ n := by
  by_contra hlt
  have h0 : k ≠ 0 := by
    intro h
    subst h
    have : bit_length 0 = 0 := by decide
    omega
  obtain ⟨-, h2⟩ := two_pow_le_of_ne_zero k h0
  have : 2 ^ n ≤ 2 ^ (bit_length k - 1) := Nat.pow_le_pow_right (by norm_num) (by omega)
  omega

/-- Rounding to binary64 is exact on a significand of at most 53 bits in the
normal exponent range: the significand is only shifted to 53 bits. -/
theorem ieee_round_64_exact (s : Bool) (k : Nat) (e : Int) (hk0 : k ≠ 0)
    (hk : k < 2 ^ 53) (hlo : -1021 ≤ e) (hhi : e ≤ 900) :
    ieee_round 11 52 s k e =
      .fin s (k * 2 ^ (53 - bit_length k)) (e + bit_length k - 53) := by
  obtain ⟨hL1, hL2⟩ := two_pow_le_of_ne_zero k hk0
  have hL := bit_length_le k 53 hk
  have hlt := lt_two_pow_bit_length k
  have hm : k * 2 ^ (53 - bit_length k) < 2 ^ 53 := by
    calc k * 2 ^ (53 - bit_length k) < 2 ^ bit_length k * 2 ^ (53 - bit_length k) :=
          Nat.mul_lt_mul_of_pos_right hlt (Nat.two_pow_pos _)
      _ = 2 ^ 53 := by rw [← Nat.pow_add]; congr 1; omega
  have hLm := bit_length_le _ 53 hm
  have he' : max (e + (bit_length k : Int) - ((52 : Nat) + 1))
      (2 - 2 ^ (11 - 1) - ((52 : Nat) : Int)) = e + bit_length k - 53 := by
    norm_num
    omega
  unfold ieee_round
  simp only [he']
  have hle : e + (bit_length k : Int) - 53 ≤ e := by omega
  have hsh : (e - (e + (bit_length k : Int) - 53)).toNat = 53 - bit_length k := by omega
  rw [if_pos hle, hsh, if_neg]
  norm_num
  omega

/-- A zero significand converts to the byte 0. -/
theorem double_to_guchar_zero (s : Bool) (e : Int) :
    double_to_guchar (.fin s 0 e) = 0 := by
  cases s <;> simp [double_to_guchar, int_to_guchar]

/-- The binary64 product of a zero by 255 is a zero. -/
theorem float_mul_zero_255 (s : Bool) (E : Int) (hlo : -1000 ≤ E) (hhi : E ≤ 1000) :
    float_mul 11 52 (.fin s 0 E) (float_of_nat 255) = .fin s 0 (E - 53) := by
  have h0 : bit_length 0 = 0 := by decide
  have he' : max (E + 0 + ((0 : Nat) : Int) - ((52 : Nat) + 1))
      (2 - 2 ^ (11 - 1) - ((52 : Nat) : Int)) = E - 53 := by
    norm_num
    omega
  have hle : E - 53 ≤ E + 0 := by omega
  simp only [float_mul, float_of_nat, ieee_round, Nat.zero_mul, h0, he', if_pos hle,
    Bool.xor_false]
  rw [if_neg]
  norm_num
  omega

/-- The decoder on a non-negative finite value `M * 2 ^ E` with `E ≤ 0`: 255
when the value exceeds 1, and otherwise the quotient of `M * 255` by
`2 ^ (-E)`, the product by 255 being exact in binary64. -/
theorem clamp_scale_fin (M : Nat) (E : Int) (hM : M < 2 ^ 24) (hlo : -1000 ≤ E)
    (hhi : E ≤ 0) :
    clamp_scale (.fin false M E) =
      if 2 ^ (-E).toNat < M then 255 else M * 255 / 2 ^ (-E).toNat := by
  have hmin1 : min E 0 = E := min_eq_left hhi
  have hmin2 : min 0 E = E := min_eq_right hhi
  have hlt0 : float_lt (.fin false M E) (float_of_nat 0) = false := by
    simp only [float_lt, float_of_nat, scaled_int, hmin1]
    simp
  have hlt1 : float_lt (float_of_nat 1) (.fin false M E) = decide (2 ^ (-E).toNat < M) := by
    simp only [float_lt, float_of_nat, scaled_int, hmin2]
    simp
    norm_cast
  unfold clamp_scale
  simp only [hlt0, hlt1, Bool.false_eq_true, if_false, decide_eq_true_eq]
  split_ifs with hgt
  · decide
  · by_cases hM0 : M = 0
    · subst hM0
      rw [float_mul_zero_255 false E hlo (by omega), double_to_guchar_zero]
      simp
    · have hK0 : M * 255 ≠ 0 := by omega
      have hK : M * 255 < 2 ^ 53 := by omega
      have hL := bit_length_le (M * 255) 32 (by omega)
      have hMle : M ≤ 2 ^ (-E).toNat := by omega
      have hq : M * 255 / 2 ^ (-E).toNat ≤ 255 :=
        Nat.div_le_of_le_mul (Nat.mul_le_mul_right _ hMle)
      have hmul : float_mul 11 52 (.fin false M E) (float_of_nat 255) =
          .fin false (M * 255 * 2 ^ (53 - bit_length (M * 255)))
            (E + bit_length (M * 255) - 53) := by
        simp only [float_mul, float_of_nat, Bool.xor_false, add_zero]
        exact ieee_round_64_exact false (M * 255) E hK0 hK (by omega) (by omega)
      rw [hmul]
      have hneg : ¬ (0 ≤ E + (bit_length (M * 255) : Int) - 53) := by omega
      simp only [double_to_guchar, int_to_guchar, if_neg hneg]
      have hexp : (-(E + (bit_length (M * 255) : Int) - 53)).toNat =
          (53 - bit_length (M * 255)) + (-E).toNat := by omega
      rw [hexp, Nat.pow_add, Nat.mul_comm (2 ^ (53 - bit_length (M * 255))),
        Nat.mul_div_mul_right _ _ (Nat.two_pow_pos _)]
      simp only [Bool.false_eq_true, if_false]
      generalize M * 255 / 2 ^ (-E).toNat = q at hq ⊢
      omega

/-- The decoder maps every negative finite value, and the negative zero, to 0. -/
theorem clamp_scale_neg (M : Nat) (E : Int) (hlo : -1000 ≤ E) (hhi : E ≤ 1000) :
    clamp_scale (.fin true M E) = 0 := by
  by_cases hM0 : M = 0
  · subst hM0
    have hlt0 : float_lt (.fin true 0 E) (float_of_nat 0) = false := by
      simp [float_lt, float_of_nat, scaled_int]
    have hlt1 : float_lt (float_of_nat 1) (.fin true 0 E) = false := by
      simp only [float_lt, float_of_nat, scaled_int]
      simp
    unfold clamp_scale
    simp only [hlt0, hlt1, Bool.false_eq_true, if_false]
    rw [float_mul_zero_255 true E hlo hhi, double_to_guchar_zero]
  · have hlt0 : float_lt (.fin true M E) (float_of_nat 0) = true := by
      simp only [float_lt, float_of_nat, scaled_int]
      simp
      positivity
    unfold clamp_scale
    simp only [hlt0, if_true]
    decide

/-! ## Half-precision conversion -/

/-- The mask `shifted_exp` of `half_to_float` keeps bits 23 to 27. -/
theorem and_exp_mask (y : Nat) :
    (0x7c00 <<< 13) &&& y = (y / 2 ^ 23 % 32) * 2 ^ 23 := by
  have hmask : (0x7c00 <<< 13 : Nat) = (2 ^ 5 - 1) <<< 23 := by decide
  rw [hmask, ← Nat.shiftLeft_eq, ← Nat.shiftRight_eq_div_pow,
    show (32 : Nat) = 2 ^ 5 from rfl]
  apply Nat.eq_of_testBit_eq
  intro i
  simp only [Nat.testBit_and, Nat.testBit_shiftLeft, Nat.testBit_two_pow_sub_one,
    Nat.testBit_mod_two_pow, Nat.testBit_shiftRight]
  by_cases h : 23 ≤ i
  · have : 23 + (i - 23) = i := by omega
    simp [h, this]
  · simp [h]

/-- The bit manipulations of `half_to_float` as arithmetic on the fields of the
pattern: the rebiased exponent and significand `o`, the masked exponent `exp`,
and the sign bit. -/
theorem half_to_float_fields (h : Nat) :
    to_unsigned (((h % 2 ^ 16) &&& 0x7fff) <<< 13) =
      half_exponent h * 2 ^ 23 + half_mantissa h * 2 ^ 13 ∧
    (0x7c00 <<< 13) &&& (half_exponent h * 2 ^ 23 + half_mantissa h * 2 ^ 13) =
      half_exponent h * 2 ^ 23 ∧
    to_unsigned (((h % 2 ^ 16) &&& 0x8000) <<< 16) = half_sign h * 2 ^ 31 := by
  unfold half_exponent half_mantissa half_sign to_unsigned
  refine ⟨?_, ?_, ?_⟩
  · rw [show (0x7fff : Nat) = 2 ^ 15 - 1 from rfl, Nat.and_pow_two_sub_one_eq_mod,
      Nat.shiftLeft_eq]
    omega
  · rw [and_exp_mask]
    omega
  · rw [show (0x8000 : Nat) = 2 ^ 15 from rfl, Nat.and_two_pow, Nat.toNat_testBit,
      Nat.shiftLeft_eq]
    omega

/-- Setting the sign bit of a pattern below `2 ^ 31` adds the bit. -/
theorem or_sign_bit (o s : Nat) (ho : o < 2 ^ 31) : o ||| s * 2 ^ 31 = s * 2 ^ 31 + o := by
  rw [Nat.lor_comm, Nat.mul_comm s, Nat.mul_add_lt_is_or ho]

/-- The patterns with an exponent field from 1 to 30: the result pattern of
`half_to_float`. -/
theorem half_to_float_normal (h : Nat) (h1 : 1 ≤ half_exponent h)
    (h30 : half_exponent h ≤ 30) :
    half_to_float h =
      half_sign h * 2 ^ 31 + ((half_exponent h + 112) * 2 ^ 23 + half_mantissa h * 2 ^ 13) := by
  obtain ⟨ho, hexp, hsign⟩ := half_to_float_fields h
  have hm : half_mantissa h < 1024 := by unfold half_mantissa; omega
  unfold half_to_float
  simp only [ho, hexp, hsign]
  have hne31 : ¬ (half_exponent h * 2 ^ 23 = 0x7c00 <<< 13) := by
    rw [show (0x7c00 <<< 13 : Nat) = 31 * 2 ^ 23 from by decide]; omega
  have hne0 : ¬ (half_exponent h * 2 ^ 23 = 0) := by omega
  rw [if_neg hne31, if_neg hne0]
  have hsum : to_unsigned (half_exponent h * 2 ^ 23 + half_mantissa h * 2 ^ 13 +
      (127 - 15) <<< 23) =
      (half_exponent h + 112) * 2 ^ 23 + half_mantissa h * 2 ^ 13 := by
    rw [show ((127 - 15) <<< 23 : Nat) = 112 * 2 ^ 23 from by decide]
    unfold to_unsigned
    omega
  rw [hsum]
  exact or_sign_bit _ _ (by omega)

/-- Rounding to binary32 is exact on a significand of at most 24 bits in the
normal exponent range. -/
theorem ieee_round_32_exact (s : Bool) (k : Nat) (e : Int) (hk0 : k ≠ 0)
    (hk : k < 2 ^ 24) (hlo : -125 ≤ e) (hhi : e ≤ 100) :
    ieee_round 8 23 s k e =
      .fin s (k * 2 ^ (24 - bit_length k)) (e + bit_length k - 24) := by
  obtain ⟨hL1, hL2⟩ := two_pow_le_of_ne_zero k hk0
  have hL := bit_length_le k 24 hk
  have hlt := lt_two_pow_bit_length k
  have hm : k * 2 ^ (24 - bit_length k) < 2 ^ 24 := by
    calc k * 2 ^ (24 - bit_length k) < 2 ^ bit_length k * 2 ^ (24 - bit_length k) :=
          Nat.mul_lt_mul_of_pos_right hlt (Nat.two_pow_pos _)
      _ = 2 ^ 24 := by rw [← Nat.pow_add]; congr 1; omega
  have hLm := bit_length_le _ 24 hm
  have he' : max (e + (bit_length k : Int) - ((23 : Nat) + 1))
      (2 - 2 ^ (8 - 1) - ((23 : Nat) : Int)) = e + bit_length k - 24 := by
    norm_num
    omega
  unfold ieee_round
  simp only [he']
  have hle : e + (bit_length k : Int) - 24 ≤ e := by omega
  have hsh : (e - (e + (bit_length k : Int) - 24)).toNat = 24 - bit_length k := by omega
  rw [if_pos hle, hsh, if_neg]
  norm_num
  omega

/-- A number shifted to the width of its digit count has its top bit there. -/
theorem two_pow_le_shifted (k n : Nat) (hk0 : k ≠ 0) (hk : k < 2 ^ n) :
    2 ^ (n - 1) ≤ k * 2 ^ (n - bit_length k) ∧ k * 2 ^ (n - bit_length k) < 2 ^ n := by
  obtain ⟨hL1, hL2⟩ := two_pow_le_of_ne_zero k hk0
  have hL := bit_length_le k n hk
  have hlt := lt_two_pow_bit_length k
  constructor
  · calc 2 ^ (n - 1) = 2 ^ (bit_length k - 1) * 2 ^ (n - bit_length k) := by
          rw [← Nat.pow_add]; congr 1; omega
      _ ≤ k * 2 ^ (n - bit_length k) := Nat.mul_le_mul_right _ hL2
  · calc k * 2 ^ (n - bit_length k) < 2 ^ bit_length k * 2 ^ (n - bit_length k) :=
          Nat.mul_lt_mul_of_pos_right hlt (Nat.two_pow_pos _)
      _ = 2 ^ n := by rw [← Nat.pow_add]; congr 1; omega

/-- The binary32 pattern of a positive normal value. -/
theorem ieee_encode_32_normal (m : Nat) (e : Int) (hm1 : 2 ^ 23 ≤ m) (hm2 : m < 2 ^ 24) :
    ieee_encode 8 23 (.fin false m e) = (e + 150).toNat * 2 ^ 23 + (m - 2 ^ 23) := by
  unfold ieee_encode
  simp only [Bool.false_eq_true, if_false, Nat.zero_add]
  rw [if_neg (by omega), if_neg (by omega)]
  congr 3
  norm_num
  omega

/-- The value of a binary32 pattern given by its sign bit, a normal exponent
field and its significand field. -/
theorem ieee_decode_32_normal (s x r : Nat) (hs : s < 2) (hx1 : 1 ≤ x) (hx2 : x ≤ 254)
    (hr : r < 2 ^ 23) :
    ieee_decode 8 23 (s * 2 ^ 31 + (x * 2 ^ 23 + r)) =
      .fin (decide (s = 1)) (2 ^ 23 + r) ((x : Int) - 150) := by
  have h1 : (s * 2 ^ 31 + (x * 2 ^ 23 + r)) % 2 ^ 23 = r := by omega
  have h2 : (s * 2 ^ 31 + (x * 2 ^ 23 + r)) / 2 ^ 23 % 2 ^ 8 = x := by omega
  have h3 : (s * 2 ^ 31 + (x * 2 ^ 23 + r)) / 2 ^ (23 + 8) % 2 = s := by omega
  unfold ieee_decode
  simp only [h1, h2, h3]
  rw [if_neg (by omega), if_neg (by omega)]
  congr 1
  norm_num
  omega

/-- The renormalising subtraction of `half_to_float`: the binary32 difference
of `(2 ^ 23 + r) * 2 ^ (-37)` and `magic`, which is `2 ^ 23 * 2 ^ (-37)`, is the
exact difference `r * 2 ^ (-37)`. -/
theorem float_sub_magic (r : Nat) (hr : r < 2 ^ 23) :
    float_sub 8 23 (.fin false (2 ^ 23 + r) (-37)) (.fin false (2 ^ 23) (-37)) =
      if r = 0 then .fin false 0 (-37)
      else .fin false (r * 2 ^ (24 - bit_length r)) (-37 + bit_length r - 24) := by
  have hd : scaled_int false (2 ^ 23 + r) (-37) (min (-37) (-37)) -
      scaled_int false (2 ^ 23) (-37) (min (-37) (-37)) = (r : Int) := by
    simp only [scaled_int, min_self, sub_self, Int.toNat_zero, pow_zero, mul_one,
      Bool.false_eq_true, if_false, one_mul]
    push_cast
    ring
  unfold float_sub
  simp only [hd]
  by_cases h0 : r = 0
  · subst h0
    simp
  · have hne : ¬ ((r : Int) = 0) := by omega
    have hlt : ¬ ((r : Int) < 0) := by omega
    rw [if_neg hne, if_neg h0]
    simp only [hlt, decide_False, Int.natAbs_ofNat, min_self]
    rw [ieee_round_32_exact false r (-37) h0 (by omega) (by norm_num) (by norm_num)]

/-- The patterns with exponent field 0: the result pattern of `half_to_float`,
a signed zero for the significand 0 and otherwise the normal binary32 number
whose significand is the significand of the pattern shifted to 24 bits. -/
theorem half_to_float_subnormal (h : Nat) (h0 : half_exponent h = 0) :
    half_to_float h =
      if half_mantissa h = 0 then half_sign h * 2 ^ 31
      else half_sign h * 2 ^ 31 +
        ((bit_length (half_mantissa h * 2 ^ 13) + 89) * 2 ^ 23 +
          (half_mantissa h * 2 ^ 13 * 2 ^ (24 - bit_length (half_mantissa h * 2 ^ 13))
            - 2 ^ 23)) := by
  obtain ⟨ho, hexp, hsign⟩ := half_to_float_fields h
  have hm : half_mantissa h < 1024 := by unfold half_mantissa; omega
  have hr : half_mantissa h * 2 ^ 13 < 2 ^ 23 := by omega
  unfold half_to_float
  simp only [ho, hexp, hsign]
  simp only [h0, Nat.zero_mul, Nat.zero_add]
  have hne31 : ¬ ((0 : Nat) = 0x7c00 <<< 13) := by decide
  rw [if_neg hne31, if_pos True.intro]
  have hsum : to_unsigned (to_unsigned (half_mantissa h * 2 ^ 13 + (127 - 15) <<< 23) +
      1 <<< 23) = 0 * 2 ^ 31 + (113 * 2 ^ 23 + half_mantissa h * 2 ^ 13) := by
    rw [show ((127 - 15) <<< 23 : Nat) = 112 * 2 ^ 23 from by decide,
      show (1 <<< 23 : Nat) = 2 ^ 23 from by decide]
    unfold to_unsigned
    omega
  have hmagic : ieee_decode 8 23 (113 <<< 23) = .fin false (2 ^ 23) (-37) := by decide
  rw [hsum, ieee_decode_32_normal 0 113 _ (by norm_num) (by norm_num) (by norm_num) hr,
    hmagic]
  have hdec : (decide ((0 : Nat) = 1)) = false := by decide
  have h37 : ((113 : Nat) : Int) - 150 = -37 := by norm_num
  rw [hdec, h37, float_sub_magic _ hr]
  by_cases hm0 : half_mantissa h = 0
  · have hr0 : half_mantissa h * 2 ^ 13 = 0 := by omega
    rw [if_pos hr0, if_pos hm0]
    have henc : ieee_encode 8 23 (.fin false 0 (-37)) = 0 := by decide
    rw [henc, Nat.zero_or]
  · have hr0 : half_mantissa h * 2 ^ 13 ≠ 0 := by omega
    rw [if_neg hr0, if_neg hm0]
    obtain ⟨hn1, hn2⟩ := two_pow_le_shifted (half_mantissa h * 2 ^ 13) 24 hr0 (by omega)
    obtain ⟨hL1, -⟩ := two_pow_le_of_ne_zero _ hr0
    have hL := bit_length_le _ 23 hr
    rw [ieee_encode_32_normal _ _ hn1 hn2]
    have hE : (-37 + (bit_length (half_mantissa h * 2 ^ 13) : Int) - 24 + 150).toNat =
        bit_length (half_mantissa h * 2 ^ 13) + 89 := by omega
    rw [hE]
    exact or_sign_bit _ _ (by omega)

/-- The value of a binary32 pattern that is only a sign bit: a signed zero. -/
theorem ieee_decode_32_zero (s : Nat) (hs : s < 2) :
    ieee_decode 8 23 (s * 2 ^ 31) = .fin (decide (s = 1)) 0 (-149) := by
  have h1 : (s * 2 ^ 31) % 2 ^ 23 = 0 := by omega
  have h2 : (s * 2 ^ 31) / 2 ^ 23 % 2 ^ 8 = 0 := by omega
  have h3 : (s * 2 ^ 31) / 2 ^ (23 + 8) % 2 = s := by omega
  unfold ieee_decode
  simp only [h1, h2, h3]
  norm_num

/-- The sign factor of `half_value`. -/
theorem half_sign_factor (h : Nat) :
    ((-1 : ℚ) ^ half_sign h) = if decide (half_sign h = 1) = true then -1 else 1 := by
  have hs : half_sign h = 0 ∨ half_sign h = 1 := by unfold half_sign; omega
  rcases hs with hs | hs <;> simp [hs]

/-- On a finite binary16 pattern, `half_to_float` returns a finite binary32
value of the sign of the pattern, with a significand below `2 ^ 24` and an
exponent from -149 to 0, that denotes the number the pattern denotes. -/
theorem half_to_float_decode (h : Nat) (hfin : half_exponent h ≠ 31) :
    ∃ M : Nat, ∃ E : Int,
      ieee_decode 8 23 (half_to_float h) = .fin (decide (half_sign h = 1)) M E ∧
      M < 2 ^ 24 ∧ -149 ≤ E ∧ E ≤ 0 ∧
      float_value (.fin (decide (half_sign h = 1)) M E) = half_value h := by
  have hs : half_sign h < 2 := by unfold half_sign; omega
  have he : half_exponent h < 32 := by unfold half_exponent; omega
  have hm : half_mantissa h < 1024 := by unfold half_mantissa; omega
  by_cases h0 : half_exponent h = 0
  · by_cases hm0 : half_mantissa h = 0
    · refine ⟨0, -149, ?_, by norm_num, by norm_num, by norm_num, ?_⟩
      · rw [half_to_float_subnormal h h0, if_pos hm0, ieee_decode_32_zero _ hs]
      · simp only [float_value, half_value, h0, hm0, if_true, Nat.cast_zero, mul_zero,
          zero_mul]
    · have hr : half_mantissa h * 2 ^ 13 < 2 ^ 23 := by omega
      have hr0 : half_mantissa h * 2 ^ 13 ≠ 0 := by omega
      obtain ⟨hn1, hn2⟩ := two_pow_le_shifted (half_mantissa h * 2 ^ 13) 24 hr0 (by omega)
      obtain ⟨hL1, -⟩ := two_pow_le_of_ne_zero _ hr0
      have hL := bit_length_le _ 23 hr
      refine ⟨half_mantissa h * 2 ^ 13 * 2 ^ (24 - bit_length (half_mantissa h * 2 ^ 13)),
        (bit_length (half_mantissa h * 2 ^ 13) : Int) - 61, ?_, hn2, by omega, by omega, ?_⟩
      · rw [half_to_float_subnormal h h0, if_neg hm0,
          ieee_decode_32_normal _ _ _ hs (by omega) (by omega) (by omega)]
        have hM : 2 ^ 23 + (half_mantissa h * 2 ^ 13 *
            2 ^ (24 - bit_length (half_mantissa h * 2 ^ 13)) - 2 ^ 23) =
            half_mantissa h * 2 ^ 13 * 2 ^ (24 - bit_length (half_mantissa h * 2 ^ 13)) := by
          omega
        have hE : ((bit_length (half_mantissa h * 2 ^ 13) + 89 : Nat) : Int) - 150 =
            (bit_length (half_mantissa h * 2 ^ 13) : Int) - 61 := by
          push_cast; omega
        rw [hM, hE]
      · simp only [float_value, half_value, h0, if_true, half_sign_factor]
        rw [mul_assoc]
        congr 1
        have hc : ((2 ^ (24 - bit_length (half_mantissa h * 2 ^ 13)) : ℕ) : ℚ) =
            (2 : ℚ) ^ ((24 : ℤ) - bit_length (half_mantissa h * 2 ^ 13)) := by
          rw [Nat.cast_pow, ← zpow_natCast, Nat.cast_sub (by omega)]
          norm_num
        have h13 : ((2 ^ 13 : ℕ) : ℚ) = (2 : ℚ) ^ (13 : ℤ) := by norm_num
        rw [Nat.cast_mul, Nat.cast_mul, hc, h13, mul_assoc, mul_assoc,
          ← zpow_add₀ (two_ne_zero), ← zpow_add₀ (two_ne_zero)]
        congr 2
        ring
  · refine ⟨2 ^ 23 + half_mantissa h * 2 ^ 13, (half_exponent h : Int) - 38, ?_, by omega,
      by omega, by omega, ?_⟩
    · rw [half_to_float_normal h (by omega) (by omega),
        ieee_decode_32_normal _ _ _ hs (by omega) (by omega) (by omega)]
      have hE : ((half_exponent h + 112 : Nat) : Int) - 150 = (half_exponent h : Int) - 38 := by
        push_cast; omega
      rw [hE]
    · simp only [float_value, half_value, h0, if_false, half_sign_factor]
      rw [mul_assoc]
      congr 1
      push_cast
      have hz : ((half_exponent h : ℤ) - 38) = ((half_exponent h : ℤ) - 15) + (-23) := by ring
      rw [hz, zpow_add₀ (two_ne_zero)]
      have h23 : (2 : ℚ) ^ (-23 : ℤ) = 1 / 2 ^ 23 := by
        rw [zpow_neg, one_div]; norm_cast
      rw [h23]
      field_simp
      ring

/-- The decoder on a finite value with a significand below `2 ^ 24` and an
exponent from -1000 to 0 clamps the number the value denotes to `[0, 1]`,
multiplies by 255 and truncates. -/
theorem clamp_scale_spec (s : Bool) (M : Nat) (E : Int) (hM : M < 2 ^ 24)
    (hlo : -1000 ≤ E) (hhi : E ≤ 0) :
    clamp_scale (.fin s M E) =
      ⌊(255 : ℚ) * min (max (float_value (.fin s M E)) 0) 1⌋₊ := by
  have hpow : (2 : ℚ) ^ E = 1 / ((2 ^ (-E).toNat : ℕ) : ℚ) := by
    have hE : E = -(((-E).toNat : ℕ) : ℤ) := by omega
    conv_lhs => rw [hE]
    rw [zpow_neg, zpow_natCast, one_div, Nat.cast_pow]
    norm_num
  have hpos : (0 : ℚ) < ((2 ^ (-E).toNat : ℕ) : ℚ) := by positivity
  cases s
  · rw [clamp_scale_fin M E hM hlo hhi]
    have hv : float_value (.fin false M E) = (M : ℚ) / ((2 ^ (-E).toNat : ℕ) : ℚ) := by
      simp only [float_value, Bool.false_eq_true, if_false, one_mul, hpow]
      ring
    have hv0 : (0 : ℚ) ≤ (M : ℚ) / ((2 ^ (-E).toNat : ℕ) : ℚ) := by positivity
    rw [hv, max_eq_left hv0]
    split_ifs with hgt
    · have h1 : (1 : ℚ) ≤ (M : ℚ) / ((2 ^ (-E).toNat : ℕ) : ℚ) := by
        rw [le_div_iff₀ hpos, one_mul]
        exact_mod_cast le_of_lt hgt
      rw [min_eq_right h1, mul_one]
      exact (Nat.floor_natCast 255).symm
    · have h1 : (M : ℚ) / ((2 ^ (-E).toNat : ℕ) : ℚ) ≤ 1 := by
        rw [div_le_iff₀ hpos, one_mul]
        exact_mod_cast not_lt.1 hgt
      rw [min_eq_left h1]
      have : (255 : ℚ) * ((M : ℚ) / ((2 ^ (-E).toNat : ℕ) : ℚ)) =
          ((M * 255 : ℕ) : ℚ) / ((2 ^ (-E).toNat : ℕ) : ℚ) := by
        push_cast; ring
      rw [this, Nat.floor_div_eq_div]
  · rw [clamp_scale_neg M E hlo (by omega)]
    have hv : float_value (.fin true M E) ≤ 0 := by
      simp only [float_value, if_true]
      have : (0 : ℚ) ≤ (M : ℚ) * 2 ^ E := by positivity
      linarith
    rw [max_eq_right hv, min_eq_left (by norm_num), mul_zero]
    exact Nat.floor_zero.symm

/-- C18: on every finite binary16 pattern (exponent field not 31)
`half_to_float` returns a finite binary32 value of the sign of the pattern
that denotes exactly the number the pattern denotes; for an exponent field `e`
from 1 to 30 the result bits are `s << 31 | (e + 112) << 23 | m << 13`, and for
the exponent field 0 the value is `(-1) ^ s * m * 2 ^ (-24)`. -/
theorem half_to_float_exact (h : Nat) (hfin : half_exponent h ≠ 31) :
    (∃ M : Nat, ∃ E : Int,
      ieee_decode 8 23 (half_to_float h) = .fin (decide (half_sign h = 1)) M E) ∧
    float_value (ieee_decode 8 23 (half_to_float h)) = half_value h ∧
    (1 ≤ half_exponent h →
      half_to_float h =
        (half_sign h <<< 31) ||| ((half_exponent h + 112) <<< 23) |||
          (half_mantissa h <<< 13)) ∧
    (half_exponent h = 0 →
      float_value (ieee_decode 8 23 (half_to_float h)) =
        (-1) ^ half_sign h * (half_mantissa h : ℚ) * 2 ^ (-24 : ℤ)) := by
  obtain ⟨M, E, hdec, -, -, -, hval⟩ := half_to_float_decode h hfin
  have he : half_exponent h < 32 := by unfold half_exponent; omega
  have hm : half_mantissa h < 1024 := by unfold half_mantissa; omega
  have hs : half_sign h < 2 := by unfold half_sign; omega
  refine ⟨⟨M, E, hdec⟩, by rw [hdec, hval], ?_, ?_⟩
  · intro h1
    rw [half_to_float_normal h h1 (by omega)]
    simp only [Nat.shiftLeft_eq]
    have hlow : half_mantissa h * 2 ^ 13 < 2 ^ 23 := by omega
    have hmid : (half_exponent h + 112) * 2 ^ 23 + half_mantissa h * 2 ^ 13 < 2 ^ 31 := by
      omega
    have e1 : (half_exponent h + 112) * 2 ^ 23 + half_mantissa h * 2 ^ 13 =
        (half_exponent h + 112) * 2 ^ 23 ||| half_mantissa h * 2 ^ 13 := by
      rw [Nat.mul_comm _ (2 ^ 23)]
      exact Nat.mul_add_lt_is_or hlow _
    have e2 : half_sign h * 2 ^ 31 +
        ((half_exponent h + 112) * 2 ^ 23 + half_mantissa h * 2 ^ 13) =
        half_sign h * 2 ^ 31 |||
          ((half_exponent h + 112) * 2 ^ 23 + half_mantissa h * 2 ^ 13) := by
      rw [Nat.mul_comm _ (2 ^ 31)]
      exact Nat.mul_add_lt_is_or hmid _
    rw [e2, e1, Nat.lor_assoc]
  · intro h0
    rw [hdec, hval]
    simp only [half_value, h0, if_true]
    ring

/-- C18, at the patterns `0x3C00` (1.0) and `0x0001` (the smallest subnormal,
`2 ^ (-24)`): the results are the binary32 patterns `0x3F800000` and
`0x33800000`. -/
theorem half_to_float_exact_witness :
    half_to_float 0x3C00 = 0x3F800000 ∧
    float_value (ieee_decode 8 23 (half_to_float 0x0001)) =
      (-1) ^ half_sign 0x0001 * (half_mantissa 0x0001 : ℚ) * 2 ^ (-24 : ℤ) ∧
    half_to_float 0x0001 = 0x33800000 :=
  ⟨((half_to_float_exact 0x3C00 (by decide)).2.2.1 (by decide)).trans (by decide),
   (half_to_float_exact 0x0001 (by decide)).2.2.2 (by decide),
   by decide⟩

/-- C16: on a sample that holds a finite binary16 pattern `h`, `read_gl_type`
under `GL_HALF_FLOAT` returns the number `h` denotes clamped to `[0, 1]`,
multiplied by 255 and truncated, which is at most 255. -/
theorem read_gl_type_half_float (data : Nat → Nat) (h : Nat) (hdata : load_u16 data = h)
    (hfin : half_exponent h ≠ 31) :
    read_gl_type data GL_HALF_FLOAT = ⌊(255 : ℚ) * min (max (half_value h) 0) 1⌋₊ ∧
    read_gl_type data GL_HALF_FLOAT ≤ 255 := by
  obtain ⟨M, E, hdec, hM, hlo, hhi, hval⟩ := half_to_float_decode h hfin
  have hcase := read_gl_type_case_labels.2.2.2.2.1
  have hread : read_gl_type data GL_HALF_FLOAT =
      ⌊(255 : ℚ) * min (max (half_value h) 0) 1⌋₊ := by
    simp only [read_gl_type, hcase, hdata, hdec]
    rw [clamp_scale_spec _ M E hM (by omega) hhi, hval]
  refine ⟨hread, ?_⟩
  rw [hread]
  have hle : (255 : ℚ) * min (max (half_value h) 0) 1 ≤ 255 := by
    have : min (max (half_value h) 0) 1 ≤ 1 := min_le_right _ _
    linarith
  calc ⌊(255 : ℚ) * min (max (half_value h) 0) 1⌋₊ ≤ ⌊(255 : ℚ)⌋₊ := Nat.floor_mono hle
    _ = 255 := Nat.floor_natCast 255

/-- C16, at the patterns `0x3C00` (1.0), `0x0000` (0.0) and `0xBC00` (-1.0),
which decode to 255, 0 and 0. -/
theorem read_gl_type_half_float_witness :
    read_gl_type (bytes [0x00, 0x3c]) GL_HALF_FLOAT =
      ⌊(255 : ℚ) * min (max (half_value 0x3C00) 0) 1⌋₊ ∧
    read_gl_type (bytes [0x00, 0x3c]) GL_HALF_FLOAT = 255 ∧
    read_gl_type (bytes [0x00, 0x00]) GL_HALF_FLOAT = 0 ∧
    read_gl_type (bytes [0x00, 0xbc]) GL_HALF_FLOAT = 0 :=
  ⟨(read_gl_type_half_float (bytes [0x00, 0x3c]) 0x3C00 (by decide) (by decide)).1,
   by decide, by decide, by decide⟩

end KTX
